import Mathlib

/-!
Verification development for the libcxl core of ndctl: a shallow embedding of
the CXL mailbox command engine (src/cxl/lib/libcxl.c, src/cxl/lib/private.h),
the label-storage transfer loop, the lazy topology discovery with duplicate
suppression, and the memdev/endpoint resolution engine, together with theorems
about their behaviour.

Modelling conventions:
- machine integers are Nat (unsigned) or Int (C int return codes), with
  explicit truncation (% 2 ^ 32, % 2 ^ 64) where the C code narrows;
- byte buffers are List Nat (one Nat per byte);
- error codes are the negated Linux errno values the C code returns:
  -22 = -EINVAL, -95 = -EOPNOTSUPP, -12 = -ENOMEM, -6 = -ENXIO;
- heap allocation is modelled as always succeeding (the -ENOMEM paths of the
  C code are early returns that none of the verified properties concern);
- the external kernel transport (ioctl on the opened device node) is modelled
  by oracle parameters: the capability table a query reports, and a SubmitRes
  describing the outcome of one send transaction.
-/

/-- Read an n-byte little-endian value from a byte buffer at a given offset
(le16_to_cpu / le32_to_cpu / le64_to_cpu on the wire structs; bytes past the
end of the buffer read as 0, matching zero-initialised storage). -/
def readLE (buf : List Nat) (off : Nat) : Nat → Nat
  | 0 => 0
  | n + 1 => buf.getD off 0 + 256 * readLE buf (off + 1) n

/-- Store an n-byte little-endian value into a byte buffer at a given offset
(cpu_to_le32 and friends; the value is implicitly truncated to n bytes, which
is exactly the narrowing the C cast performs). Writes past the end of the
buffer are dropped, as List.set ignores out-of-range indices. -/
def writeLE (buf : List Nat) (off v : Nat) : Nat → List Nat
  | 0 => buf
  | n + 1 => writeLE (buf.set off (v % 256)) (off + 1) (v / 256) n

/-- memcpy of n bytes out of a source buffer: data actually present is copied,
any tail the C code would read from uninitialised or out-of-range memory is
modelled as zero bytes. -/
def takePad (l : List Nat) (n : Nat) : List Nat :=
  l.take n ++ List.replicate (n - l.length) 0

/-- memcpy of a data block into a buffer at a given byte offset. -/
def overwriteAt (buf : List Nat) (off : Nat) (data : List Nat) : List Nat :=
  buf.take off ++ data ++ buf.drop (off + data.length)

/-! ## Command ids

The numeric command ids come from the external kernel UAPI header
(cxl_mem.h, enum built by the CXL_CMDS macro); only their values and their
distinctness matter to the library code. -/

def CXL_MEM_COMMAND_ID_IDENTIFY : Nat := 1
def CXL_MEM_COMMAND_ID_GET_PARTITION_INFO : Nat := 5
def CXL_MEM_COMMAND_ID_GET_LSA : Nat := 6
def CXL_MEM_COMMAND_ID_GET_HEALTH_INFO : Nat := 7
def CXL_MEM_COMMAND_ID_SET_LSA : Nat := 10

/-- SZ_256M, the fixed 256 MiB unit of capacity-like fields
(CXL_CAPACITY_MULTIPLIER in private.h). -/
def CXL_CAPACITY_MULTIPLIER : Nat := 268435456

/-! ## Command engine data model (struct cxl_cmd and the wire descriptors) -/

/-- One entry of the capability table (struct cxl_command_info of the kernel
UAPI): command id, flags, declared input and output payload sizes. -/
structure CommandInfo where
  id : Nat
  flags : Nat
  size_in : Nat
  size_out : Nat
deriving DecidableEq, Repr

/-- The query-status tri-state of a command (enum cxl_cmd_query_status). -/
inductive QueryStatus where
  | notRun
  | ok
  | unsupported
deriving DecidableEq, Repr

/-- What a send descriptor payload pointer refers to: NULL, the command's own
automatically allocated buffer (cmd->input_payload / cmd->output_payload), or
a caller-supplied buffer whose contents are carried inline. -/
inductive PayloadRef where
  | null
  | owned
  | user (buf : List Nat)
deriving DecidableEq, Repr

/-- struct cxl_send_command: command id, input/output payload size and
pointer, and the device-written return value. -/
structure SendCmd where
  id : Nat
  in_size : Nat
  in_ref : PayloadRef
  out_size : Nat
  out_ref : PayloadRef
  retval : Int
deriving DecidableEq, Repr

/-- struct cxl_mem_query_commands: the count the kernel reports and the
capability entries it copied out. -/
structure QueryCmd where
  n_commands : Nat
  commands : List CommandInfo
deriving DecidableEq, Repr

/-- struct cxl_cmd. The memdev reference is represented by the single memdev
field the engine reads, payload_max. -/
structure CxlCmd where
  payload_max : Nat
  query_cmd : Option QueryCmd
  send_cmd : Option SendCmd
  input_payload : Option (List Nat)
  output_payload : Option (List Nat)
  query_status : QueryStatus
  query_idx : Nat
  status : Int
deriving DecidableEq, Repr

/-- One interaction with the external raw device channel: a query-commands
ioctl (with the n_commands the caller passed in) or a send-command ioctl. -/
inductive IoOp where
  | queryCall (n : Nat)
  | sendCall (id : Nat) (inPayload : Option (List Nat)) (in_size out_size : Nat)
deriving DecidableEq, Repr

/-- Whether an IoOp is a send transaction. -/
def IoOp.isSend : IoOp → Bool
  | .sendCall _ _ _ _ => true
  | _ => false

/-- Outcome of one send transaction, supplied by the external transport:
the ioctl-level return code, the device-reported mailbox return value the
kernel writes into send_cmd.retval, and the bytes it writes into the output
payload. -/
structure SubmitRes where
  rc : Int
  retval : Int
  out : List Nat
deriving DecidableEq, Repr

/-- cxl_cmd_new: a zeroed command bound to a memdev (calloc + ref). -/
def cxl_cmd_new (pmax : Nat) : CxlCmd :=
  { payload_max := pmax
    query_cmd := none
    send_cmd := none
    input_payload := none
    output_payload := none
    query_status := .notRun
    query_idx := 0
    status := 0 }

/-- Dereference the send descriptor's input payload pointer. -/
def readInPayload (cmd : CxlCmd) : Option (List Nat) :=
  match cmd.send_cmd with
  | none => none
  | some sc =>
    match sc.in_ref with
    | .null => none
    | .owned => cmd.input_payload
    | .user b => some b

/-- Dereference the send descriptor's output payload pointer. -/
def readOutPayload (cmd : CxlCmd) : Option (List Nat) :=
  match cmd.send_cmd with
  | none => none
  | some sc =>
    match sc.out_ref with
    | .null => none
    | .owned => cmd.output_payload
    | .user b => some b

/-- Write through the send descriptor's input payload pointer (the C code
stores wire-struct fields via in.payload). A NULL pointer is left untouched:
the corresponding C store would fault, and every theorem below excludes that
case by hypothesis. -/
def storeIn (cmd : CxlCmd) (f : List Nat → List Nat) : CxlCmd :=
  match cmd.send_cmd with
  | none => cmd
  | some sc =>
    match sc.in_ref with
    | .null => cmd
    | .owned => { cmd with input_payload := some (f (cmd.input_payload.getD [])) }
    | .user b => { cmd with send_cmd := some { sc with in_ref := .user (f b) } }

/-! ## Command engine operations -/

/-- cxl_cmd_alloc_query followed by do_cmd(CXL_MEM_QUERY_COMMANDS)
(alloc_do_query): a fresh query buffer sized for num_cmds entries is
allocated, then the external query ioctl fills it. The transport is modelled
as succeeding; the kernel reports the device's total command count when asked
with n_commands = 0 and otherwise copies out the first num_cmds capability
entries. The caps parameter is the capability table the device reports. -/
def alloc_do_query (caps : List CommandInfo) (cmd : CxlCmd) (num_cmds : Nat) :
    Int × CxlCmd × List IoOp :=
  let qc : QueryCmd :=
    { n_commands := if num_cmds = 0 then caps.length else num_cmds
      commands := caps.take num_cmds }
  (0, { cmd with query_cmd := some qc }, [IoOp.queryCall num_cmds])

/-- cxl_cmd_do_query: two-phase capability query, skipped when this command's
query_status already holds a result. -/
def cxl_cmd_do_query (caps : List CommandInfo) (cmd : CxlCmd) :
    Int × CxlCmd × List IoOp :=
  match cmd.query_status with
  | .ok => (0, cmd, [])
  | .unsupported => (-95, cmd, [])
  | .notRun =>
    let r1 := alloc_do_query caps cmd 0
    let n := (r1.2.1.query_cmd.map QueryCmd.n_commands).getD 0
    let r2 := alloc_do_query caps r1.2.1 n
    (r2.1, r2.2.1, r1.2.2 ++ r2.2.2)

/-- cxl_cmd_validate: linear search of the queried capability table for the
requested command id; the first match records its index and marks the query
ok, no match marks the query unsupported and fails with -EOPNOTSUPP. -/
def cxl_cmd_validate (cmd : CxlCmd) (cmd_id : Nat) : Int × CxlCmd :=
  let cmds := (cmd.query_cmd.map QueryCmd.commands).getD []
  match cmds.findIdx? (fun ci => ci.id = cmd_id) with
  | some i => (0, { cmd with query_idx := i, query_status := .ok })
  | none => (-95, { cmd with query_status := .unsupported })

/-- cxl_cmd_set_input_payload: bound-check the size against the device's
payload_max, then either allocate a zeroed owned buffer (NULL caller buffer)
or point the send descriptor at the caller's buffer. The C size < 0 check is
vacuous over Nat. A NULL send descriptor is rejected here in the model; the C
code would fault and the library only calls this after allocation. -/
def cxl_cmd_set_input_payload (cmd : CxlCmd) (buf : Option (List Nat))
    (size : Nat) : Int × CxlCmd :=
  if size > cmd.payload_max then (-22, cmd)
  else
    match cmd.send_cmd with
    | none => (-22, cmd)
    | some sc =>
      match buf with
      | none =>
        (0, { cmd with
                input_payload := some (List.replicate size 0)
                send_cmd := some { sc with in_ref := .owned, in_size := size } })
      | some b =>
        (0, { cmd with send_cmd := some { sc with in_ref := .user b, in_size := size } })

/-- cxl_cmd_set_output_payload: mirror image of the input case. -/
def cxl_cmd_set_output_payload (cmd : CxlCmd) (buf : Option (List Nat))
    (size : Nat) : Int × CxlCmd :=
  if size > cmd.payload_max then (-22, cmd)
  else
    match cmd.send_cmd with
    | none => (-22, cmd)
    | some sc =>
      match buf with
      | none =>
        (0, { cmd with
                output_payload := some (List.replicate size 0)
                send_cmd := some { sc with out_ref := .owned, out_size := size } })
      | some b =>
        (0, { cmd with send_cmd := some { sc with out_ref := .user b, out_size := size } })

/-- cxl_cmd_alloc_send: allocate the zeroed send descriptor, re-check the
capability entry at query_idx against the requested id, then auto-allocate
owned payload buffers for any non-zero declared sizes. -/
def cxl_cmd_alloc_send (cmd : CxlCmd) (cmd_id : Nat) : Int × CxlCmd :=
  match cmd.query_cmd with
  | none => (-22, cmd)
  | some q =>
    let cinfo := q.commands.getD cmd.query_idx ⟨0, 0, 0, 0⟩
    let sc0 : SendCmd :=
      { id := 0, in_size := 0, in_ref := .null, out_size := 0, out_ref := .null, retval := 0 }
    let cmd := { cmd with send_cmd := some sc0 }
    if cinfo.id ≠ cmd_id then (-22, cmd)
    else
      let sc1 : SendCmd :=
        { id := cmd_id
          in_size := if cinfo.size_in > 0 then cinfo.size_in else 0
          in_ref := if cinfo.size_in > 0 then .owned else .null
          out_size := if cinfo.size_out > 0 then cinfo.size_out else 0
          out_ref := if cinfo.size_out > 0 then .owned else .null
          retval := 0 }
      (0, { cmd with
              send_cmd := some sc1
              input_payload :=
                if cinfo.size_in > 0 then some (List.replicate cinfo.size_in 0) else cmd.input_payload
              output_payload :=
                if cinfo.size_out > 0 then some (List.replicate cinfo.size_out 0) else cmd.output_payload })

/-- cxl_cmd_new_generic: new command, capability query, validation of the
requested id, send-descriptor allocation, then status := 1. On failure the C
code unrefs (frees) the command and returns NULL with errno set; the model
returns the negative error code together with the command state at the
failure point so that state can be reasoned about. -/
def cxl_cmd_new_generic (pmax : Nat) (caps : List CommandInfo) (cmd_id : Nat) :
    Int × CxlCmd × List IoOp :=
  let cmd := cxl_cmd_new pmax
  let q := cxl_cmd_do_query caps cmd
  if q.1 ≠ 0 then (q.1, q.2.1, q.2.2)
  else
    let v := cxl_cmd_validate q.2.1 cmd_id
    if v.1 ≠ 0 then (v.1, v.2, q.2.2)
    else
      let a := cxl_cmd_alloc_send v.2 cmd_id
      if a.1 ≠ 0 then (a.1, a.2, q.2.2)
      else (0, { a.2 with status := 1 }, q.2.2)

/-- Kernel writeback of the output payload after a successful send ioctl:
the referenced output buffer receives out_size bytes of device data. -/
def writeOutPayload (cmd : CxlCmd) (data : List Nat) : CxlCmd :=
  match cmd.send_cmd with
  | none => cmd
  | some sc =>
    match sc.out_ref with
    | .null => cmd
    | .owned => { cmd with output_payload := some (takePad data sc.out_size) }
    | .user _ => { cmd with send_cmd := some { sc with out_ref := .user (takePad data sc.out_size) } }

/-- cxl_cmd_submit: a command may be sent only when its query_status is ok
(unsupported fails -EOPNOTSUPP, not-run fails -EINVAL); otherwise the send
ioctl is issued (do_cmd, modelled by the SubmitRes oracle) and the cached
status is set from send_cmd.retval. On a transport failure (rc < 0) the
kernel wrote nothing back, so status picks up the stale retval. A command
with query_status ok but no send descriptor cannot arise through the library
API; the model rejects it with -EINVAL where the C code would fault. -/
def cxl_cmd_submit (res : SubmitRes) (cmd : CxlCmd) : Int × CxlCmd × List IoOp :=
  match cmd.query_status with
  | .unsupported => (-95, cmd, [])
  | .notRun => (-22, cmd, [])
  | .ok =>
    match cmd.send_cmd with
    | none => (-22, cmd, [])
    | some sc =>
      let op := IoOp.sendCall sc.id (readInPayload cmd) sc.in_size sc.out_size
      if res.rc < 0 then
        (res.rc, { cmd with status := sc.retval }, [op])
      else
        let cmd1 := writeOutPayload { cmd with send_cmd := some { sc with retval := res.retval } } res.out
        (res.rc, { cmd1 with status := res.retval }, [op])

/-- cxl_cmd_get_mbox_status: the cached device-reported status. -/
def cxl_cmd_get_mbox_status (cmd : CxlCmd) : Int :=
  cmd.status

/-- cxl_cmd_validate_status: output accessors pass iff the send descriptor
carries the id the accessor expects and the cached status is not negative; a
negative cached status is surfaced as the error. A missing send descriptor is
modelled as -EINVAL (the C code would dereference NULL; unreachable through
the library API). -/
def cxl_cmd_validate_status (cmd : CxlCmd) (id : Nat) : Int :=
  match cmd.send_cmd with
  | none => -22
  | some sc =>
    if sc.id ≠ id then -22
    else if cmd.status < 0 then cmd.status
    else 0

/-- cxl_capacity_to_bytes: le64_to_cpu(size) * CXL_CAPACITY_MULTIPLIER in
64-bit unsigned arithmetic. -/
def cxl_capacity_to_bytes (v : Nat) : Nat :=
  v * CXL_CAPACITY_MULTIPLIER % 2 ^ 64

/-! ## Typed output accessors

Byte offsets below follow the packed wire structs of private.h:
struct cxl_cmd_identify has fw_revision[16] at 0, total_capacity at 16,
volatile_capacity at 24, persistent_capacity at 32, partition_align at 40
(all le64), and lsa_size (le32) at 56; struct cxl_cmd_get_partition has
active_volatile at 0, active_persistent at 8, next_volatile at 16,
next_persistent at 24 (all le64); struct cxl_cmd_get_lsa_in has offset at 0
and length at 4 (le32); struct cxl_cmd_set_lsa has offset at 0, rsvd at 4
(le32 each) and the raw label data from byte 8. -/

/-- cmd_to_identify: status-validate against CXL_MEM_COMMAND_ID_IDENTIFY and
hand out the owned output payload. -/
def cmd_to_identify (cmd : CxlCmd) : Option (List Nat) :=
  if cxl_cmd_validate_status cmd CXL_MEM_COMMAND_ID_IDENTIFY ≠ 0 then none
  else cmd.output_payload

/-- cxl_cmd_identify_get_total_size (ULLONG_MAX on a NULL payload). -/
def cxl_cmd_identify_get_total_size (cmd : CxlCmd) : Nat :=
  match cmd_to_identify cmd with
  | none => 2 ^ 64 - 1
  | some buf => cxl_capacity_to_bytes (readLE buf 16 8)

/-- cxl_cmd_identify_get_volatile_only_size. -/
def cxl_cmd_identify_get_volatile_only_size (cmd : CxlCmd) : Nat :=
  match cmd_to_identify cmd with
  | none => 2 ^ 64 - 1
  | some buf => cxl_capacity_to_bytes (readLE buf 24 8)

/-- cxl_cmd_identify_get_persistent_only_size. -/
def cxl_cmd_identify_get_persistent_only_size (cmd : CxlCmd) : Nat :=
  match cmd_to_identify cmd with
  | none => 2 ^ 64 - 1
  | some buf => cxl_capacity_to_bytes (readLE buf 32 8)

/-- cxl_cmd_identify_get_partition_align. -/
def cxl_cmd_identify_get_partition_align (cmd : CxlCmd) : Nat :=
  match cmd_to_identify cmd with
  | none => 2 ^ 64 - 1
  | some buf => cxl_capacity_to_bytes (readLE buf 40 8)

/-- cmd_to_get_partition: status-validate against
CXL_MEM_COMMAND_ID_GET_PARTITION_INFO and hand out the owned output payload. -/
def cmd_to_get_partition (cmd : CxlCmd) : Option (List Nat) :=
  if cxl_cmd_validate_status cmd CXL_MEM_COMMAND_ID_GET_PARTITION_INFO ≠ 0 then none
  else cmd.output_payload

/-- cxl_cmd_partition_get_active_volatile_size. -/
def cxl_cmd_partition_get_active_volatile_size (cmd : CxlCmd) : Nat :=
  match cmd_to_get_partition cmd with
  | none => 2 ^ 64 - 1
  | some buf => cxl_capacity_to_bytes (readLE buf 0 8)

/-- cxl_cmd_partition_get_active_persistent_size. -/
def cxl_cmd_partition_get_active_persistent_size (cmd : CxlCmd) : Nat :=
  match cmd_to_get_partition cmd with
  | none => 2 ^ 64 - 1
  | some buf => cxl_capacity_to_bytes (readLE buf 8 8)

/-- cxl_cmd_partition_get_next_volatile_size. -/
def cxl_cmd_partition_get_next_volatile_size (cmd : CxlCmd) : Nat :=
  match cmd_to_get_partition cmd with
  | none => 2 ^ 64 - 1
  | some buf => cxl_capacity_to_bytes (readLE buf 16 8)

/-- cxl_cmd_partition_get_next_persistent_size. -/
def cxl_cmd_partition_get_next_persistent_size (cmd : CxlCmd) : Nat :=
  match cmd_to_get_partition cmd with
  | none => 2 ^ 64 - 1
  | some buf => cxl_capacity_to_bytes (readLE buf 24 8)

/-- cxl_cmd_read_label_get_payload: validate status for GET_LSA, re-read the
requested length from the get_lsa input struct and refuse a larger read, then
memcpy the output payload into the caller's buffer and return the length. The
returned pair is (ssize_t result, bytes copied to the caller). -/
def cxl_cmd_read_label_get_payload (cmd : CxlCmd) (length : Nat) :
    Int × List Nat :=
  let rc := cxl_cmd_validate_status cmd CXL_MEM_COMMAND_ID_GET_LSA
  if rc ≠ 0 then (rc, [])
  else
    let get_lsa := (readInPayload cmd).getD []
    if length > readLE get_lsa 4 4 then (-22, [])
    else
      let payload := (readOutPayload cmd).getD []
      ((length : Int), takePad payload length)

/-! ## Label command constructors -/

/-- cxl_cmd_new_read_label: a generic GET_LSA command whose auto-allocated
input payload receives the le32 offset and length of the window to read. -/
def cxl_cmd_new_read_label (pmax : Nat) (caps : List CommandInfo)
    (offset length : Nat) : Option CxlCmd × List IoOp :=
  let g := cxl_cmd_new_generic pmax caps CXL_MEM_COMMAND_ID_GET_LSA
  if g.1 ≠ 0 then (none, g.2.2)
  else
    (some (storeIn g.2.1 (fun b => writeLE (writeLE b 0 offset 4) 4 length 4)), g.2.2)

/-- cxl_cmd_new_write_label: a generic SET_LSA command; an owned input buffer
of size header (8) + length is allocated through cxl_cmd_set_input_payload,
the le32 offset lands in the set_lsa header and the label data is copied in
behind it. -/
def cxl_cmd_new_write_label (pmax : Nat) (caps : List CommandInfo)
    (data : List Nat) (offset length : Nat) : Option CxlCmd × List IoOp :=
  let g := cxl_cmd_new_generic pmax caps CXL_MEM_COMMAND_ID_SET_LSA
  if g.1 ≠ 0 then (none, g.2.2)
  else
    let s := cxl_cmd_set_input_payload g.2.1 none (8 + length)
    if s.1 ≠ 0 then (none, g.2.2)
    else
      (some (storeIn s.2 (fun b => overwriteAt (writeLE b 0 offset 4) 8 (takePad data length))),
       g.2.2)

/-! ## Label storage transfer (lsa_op and __lsa_op) -/

/-- enum lsa_op. -/
inductive LsaOp where
  | get
  | set
  | zero
deriving DecidableEq, Repr

/-- The tail of one __lsa_op call after the command is fully constructed:
submit, check the device-reported mailbox status (mapping a non-zero status
to -ENXIO), and for a read fetch the payload back. -/
def finishStep (res : SubmitRes) (op : LsaOp) (cmd : CxlCmd) (tr : List IoOp)
    (length : Nat) : Int × List IoOp :=
  let sub := cxl_cmd_submit res cmd
  let tr := tr ++ sub.2.2
  if sub.1 < 0 then (sub.1, tr)
  else
    let st := cxl_cmd_get_mbox_status sub.2.1
    if st ≠ 0 then (-6, tr)
    else
      match op with
      | .get =>
        let rl := cxl_cmd_read_label_get_payload sub.2.1 length
        if rl.1 < 0 then (rl.1, tr) else (0, tr)
      | _ => (0, tr)

/-- The LSA_OP_SET / LSA_OP_ZERO arm of __lsa_op (both build a write-label
command from a data buffer; a NULL constructor result surfaces as -ENOMEM). -/
def lsaWritePath (pmax : Nat) (caps : List CommandInfo) (res : SubmitRes)
    (data : List Nat) (length offset : Nat) : Int × List IoOp :=
  match cxl_cmd_new_write_label pmax caps data offset length with
  | (none, tr) => (-12, tr)
  | (some cmd, tr) => finishStep res .set cmd tr length

/-- One __lsa_op call: build the per-chunk command (read-label with the
caller's window as output payload, write-label from the data, or write-label
from a freshly calloc-ed zero buffer of the chunk length), then submit and
finish. The buf argument is the caller's window for this chunk (none =
NULL). -/
def lsaOpStep (pmax : Nat) (caps : List CommandInfo) (res : SubmitRes)
    (op : LsaOp) (buf : Option (List Nat)) (length offset : Nat) :
    Int × List IoOp :=
  match op with
  | .get =>
    match cxl_cmd_new_read_label pmax caps offset length with
    | (none, tr) => (-12, tr)
    | (some cmd, tr) =>
      let s := cxl_cmd_set_output_payload cmd buf length
      if s.1 ≠ 0 then (s.1, tr)
      else finishStep res .get s.2 tr length
  | .zero => lsaWritePath pmax caps res (List.replicate length 0) length offset
  | .set => lsaWritePath pmax caps res (buf.getD []) length offset

/-- The chunk size of one loop iteration: min(label_iter_max, remaining),
where label_iter_max = payload_max - sizeof(struct cxl_cmd_set_lsa) is
computed in a C int. For payload_max < 8 the size_t subtraction underflows
and the int result is negative, so the (size_t) cast back makes min pick
remaining; payload_max = 8 gives a zero chunk and the C loop never
terminates. -/
def curLen (pmax remaining : Nat) : Nat :=
  if pmax < 8 then remaining else min (pmax - 8) remaining

/-- The while loop of lsa_op. fuel is an upper bound on the number of
iterations (each iteration consumes at least one byte of remaining whenever
the chunk size is positive, so lsa_op passes fuel = length); the none result
marks the one situation in which the C loop diverges, a zero chunk size with
bytes remaining. The result carries the return code, the (offset, length)
chunk of every issued __lsa_op call, and the accumulated channel trace. -/
def lsaLoop (ω : Nat → Nat → SubmitRes) (pmax : Nat) (caps : List CommandInfo)
    (op : LsaOp) (buf : Option (List Nat)) (offset : Nat) :
    Nat → Nat → Nat → Option (Int × List (Nat × Nat) × List IoOp)
  | _, _, 0 => some (0, [], [])
  | 0, _, _ + 1 => none
  | f + 1, cur_off, r + 1 =>
    let remaining := r + 1
    let cl := curLen pmax remaining
    if cl = 0 then none
    else
      let step := lsaOpStep pmax caps (ω (offset + cur_off) cl) op
        (buf.map (List.drop cur_off)) cl (offset + cur_off)
      if step.1 ≠ 0 then some (step.1, [(offset + cur_off, cl)], step.2)
      else
        match lsaLoop ω pmax caps op buf offset f (cur_off + cl) (remaining - cl) with
        | none => none
        | some (rc, txns, ops) =>
          some (rc, (offset + cur_off, cl) :: txns, step.2 ++ ops)

/-- lsa_op: reject a NULL buffer for anything but the zero op, return
immediately on a zero-length request, then drive the chunk loop. ω is the
transport oracle giving each (offset, length) transaction's outcome. -/
def lsa_op (ω : Nat → Nat → SubmitRes) (pmax : Nat) (caps : List CommandInfo)
    (op : LsaOp) (buf : Option (List Nat)) (length offset : Nat) :
    Option (Int × List (Nat × Nat) × List IoOp) :=
  if op ≠ LsaOp.zero ∧ buf = none then some (-22, [], [])
  else if length = 0 then some (0, [], [])
  else lsaLoop ω pmax caps op buf offset length 0 length

/-- cxl_memdev_read_label. -/
def cxl_memdev_read_label (ω : Nat → Nat → SubmitRes) (pmax : Nat)
    (caps : List CommandInfo) (buf : Option (List Nat)) (length offset : Nat) :
    Option (Int × List (Nat × Nat) × List IoOp) :=
  lsa_op ω pmax caps .get buf length offset

/-- cxl_memdev_write_label. -/
def cxl_memdev_write_label (ω : Nat → Nat → SubmitRes) (pmax : Nat)
    (caps : List CommandInfo) (buf : Option (List Nat)) (length offset : Nat) :
    Option (Int × List (Nat × Nat) × List IoOp) :=
  lsa_op ω pmax caps .set buf length offset

/-- cxl_memdev_zero_label. -/
def cxl_memdev_zero_label (ω : Nat → Nat → SubmitRes) (pmax : Nat)
    (caps : List CommandInfo) (length offset : Nat) :
    Option (Int × List (Nat × Nat) × List IoOp) :=
  lsa_op ω pmax caps .zero none length offset

/-! ## Lazy topology discovery with duplicate suppression

add_cxl_memdev and add_cxl_port share one shape: construct the node from the
external sysfs entry (any mandatory attribute failure skips just this node),
scan the parent collection for an existing node with the same id and return
that instead, otherwise link the new node into the collection (ccan list_add
prepends). dedupAdd captures that shape; the two build functions carry the
per-type attribute reads. -/

/-- The construct / duplicate-check / link step shared by the add_cxl_*
callbacks of sysfs_device_parse. -/
def dedupAdd {ε ν : Type} (build : ε → Option ν) (idOf : ν → Nat)
    (coll : List ν) (e : ε) : List ν × Option ν :=
  match build e with
  | none => (coll, none)
  | some node =>
    match coll.find? (fun n => idOf n = idOf node) with
    | some dup => (coll, some dup)
    | none => (node :: coll, some node)

/-- One sysfs entry for a memdev: the parsed trailing id, whether every
mandatory attribute read succeeds (stat of the device node, pmem/ram sizes,
payload_max, label_storage_size, dev/host paths, firmware_version), and the
scalar attribute values a successful construction copies in. -/
structure MemdevEntry where
  id : Nat
  ok : Bool
  pmem_size : Nat
  ram_size : Nat
  payload_max : Nat
  lsa_size : Nat
deriving DecidableEq, Repr

/-- struct cxl_memdev, reduced to the fields the discovery claims concern. -/
structure Memdev where
  id : Nat
  pmem_size : Nat
  ram_size : Nat
  payload_max : Nat
  lsa_size : Nat
deriving DecidableEq, Repr

/-- The construction part of add_cxl_memdev (calloc + attribute reads; a
failed mandatory read frees the node and returns NULL). -/
def buildMemdev (e : MemdevEntry) : Option Memdev :=
  if e.ok then some ⟨e.id, e.pmem_size, e.ram_size, e.payload_max, e.lsa_size⟩ else none

/-- add_cxl_memdev. -/
def add_cxl_memdev (coll : List Memdev) (e : MemdevEntry) :
    List Memdev × Option Memdev :=
  dedupAdd buildMemdev Memdev.id coll e

/-- One sysfs entry for a switch port: parsed id and the resolved uport path
(cxl_port_init fails construction when the uport realpath fails). -/
structure PortEntry where
  id : Nat
  uport : Option Nat
deriving DecidableEq, Repr

/-- struct cxl_port, reduced to the fields the discovery claims concern. -/
structure Port where
  id : Nat
  uport : Nat
deriving DecidableEq, Repr

/-- The construction part of add_cxl_port (calloc + cxl_port_init). -/
def buildPort (e : PortEntry) : Option Port :=
  match e.uport with
  | none => none
  | some u => some ⟨e.id, u⟩

/-- add_cxl_port. -/
def add_cxl_port (coll : List Port) (e : PortEntry) : List Port × Option Port :=
  dedupAdd buildPort Port.id coll e

/-- sysfs_device_parse: enumerate the matching child entries and run the add
callback on each, threading the parent collection. -/
def sysfs_device_parse {ε ν : Type} (add : List ν → ε → List ν × Option ν)
    (coll : List ν) (es : List ε) : List ν :=
  es.foldl (fun c e => (add c e).1) coll

/-- The context-level memdev collection with its initialized flag. -/
structure CtxMemdevs where
  memdevs_init : Bool
  memdevs : List Memdev
deriving DecidableEq, Repr

/-- cxl_memdevs_init: at most one scan per invalidation epoch, guarded by the
collection flag. -/
def cxl_memdevs_init (ext : List MemdevEntry) (ctx : CtxMemdevs) : CtxMemdevs :=
  if ctx.memdevs_init then ctx
  else { memdevs_init := true
         memdevs := sysfs_device_parse add_cxl_memdev ctx.memdevs ext }

/-- A port's child-port collection with its initialized flag. -/
structure PortChildren where
  ports_init : Bool
  child_ports : List Port
deriving DecidableEq, Repr

/-- cxl_ports_init: the per-port guarded scan for child ports. -/
def cxl_ports_init (ext : List PortEntry) (p : PortChildren) : PortChildren :=
  if p.ports_init then p
  else { ports_init := true
         child_ports := sysfs_device_parse add_cxl_port p.child_ports ext }

/-! ## Resolution engine (memdev and endpoint cross-linking)

Device names are modelled as Nat atoms. An endpoint record carries its id and
the devname of its upstream host; a port tree node carries the port id, its
endpoint children and its child ports. The per-object state the resolution
engine reads and writes outside the trees (driver-bound checks, the
memdev->endpoint and endpoint->memdev links) lives in maps of the Topo
record, keyed by memdev and endpoint ids. -/

/-- An endpoint as the search sees it: its id and its upstream host name
(cxl_endpoint_get_host). -/
structure EpRec where
  id : Nat
  host : Nat
deriving DecidableEq, Repr

/-- A port subtree: port id, endpoint children, child ports. -/
inductive PTree where
  | node (id : Nat) (eps : List EpRec) (children : List PTree)

/-- cxl_port_find_endpoint: depth-first over the child ports of the parent
port — each child's own endpoints are checked before descending into it, and
siblings follow. -/
def cxl_port_find_endpoint : List PTree → Nat → Option EpRec
  | [], _ => none
  | PTree.node _ eps cs :: rest, name =>
    match eps.find? (fun e => e.host = name) with
    | some e => some e
    | none =>
      match cxl_port_find_endpoint cs name with
      | some e => some e
      | none => cxl_port_find_endpoint rest name

/-- Whether an endpoint with the given id occurs in a port forest (used to
model the parent walk of cxl_port_get_bus: the bus of an endpoint is the root
of the tree it sits in). -/
def treeHasEp : List PTree → Nat → Bool
  | [], _ => false
  | PTree.node _ eps cs :: rest, eid =>
    eps.any (fun e => e.id = eid) || treeHasEp cs eid || treeHasEp rest eid

/-- A bus: the root port's id, its ports-initialized flag and its child-port
subtrees. -/
structure BusRec where
  id : Nat
  ports_init : Bool
  children : List PTree

/-- struct cxl_memdev as the resolution engine sees it: id and devname. -/
structure MdRec where
  id : Nat
  name : Nat
deriving DecidableEq, Repr

/-- The topology state the resolution engine operates on. mdEnabled and
epEnabled are the external driver-bound checks; mdEndpoint and epMemdev are
the cached cross-links (none = NULL); flushed records whether the external
full-topology flush notification was issued. -/
structure Topo where
  memdevs : List MdRec
  buses : List BusRec
  mdEnabled : Nat → Bool
  epEnabled : Nat → Bool
  mdEndpoint : Nat → Option Nat
  epMemdev : Nat → Option Nat
  flushed : Bool

/-- Pointwise update of a cross-link map. -/
def updMap (f : Nat → Option Nat) (k : Nat) (v : Option Nat) :
    Nat → Option Nat :=
  fun i => if i = k then v else f i

/-- The cxl_bus_foreach loop of cxl_memdev_get_endpoint: first bus whose port
tree contains a matching endpoint. -/
def searchBuses : List BusRec → Nat → Option EpRec
  | [], _ => none
  | b :: rest, name =>
    match cxl_port_find_endpoint b.children name with
    | some e => some e
    | none => searchBuses rest name

/-- Result of one cxl_memdev_get_endpoint call: the endpoint (by id), the
topology state afterwards, whether the bus trees were walked, and whether the
consistency warning was logged. -/
structure EpResolution where
  res : Option Nat
  topo : Topo
  scanned : Bool
  warned : Bool

/-- cxl_memdev_get_endpoint: cached link, else NULL for a disabled device,
else walk every bus's port tree; on a match, warn if the endpoint already
links a different memdev, then cache the link in both directions (the C code
assigns endpoint->memdev = memdev unconditionally after the warning). -/
def cxl_memdev_get_endpoint (t : Topo) (d : MdRec) : EpResolution :=
  match t.mdEndpoint d.id with
  | some e => ⟨some e, t, false, false⟩
  | none =>
    if t.mdEnabled d.id then
      match searchBuses t.buses d.name with
      | none => ⟨none, t, true, false⟩
      | some e =>
        let warned : Bool :=
          match t.epMemdev e.id with
          | some m => decide (m ≠ d.id)
          | none => false
        ⟨some e.id,
         { t with
             mdEndpoint := updMap t.mdEndpoint d.id (some e.id)
             epMemdev := updMap t.epMemdev e.id (some d.id) },
         true, warned⟩
    else ⟨none, t, false, false⟩

/-- Result of one cxl_endpoint_get_memdev call. -/
structure MdResolution where
  res : Option Nat
  topo : Topo
  warned : Bool

/-- cxl_endpoint_get_memdev: cached link, else NULL for a disabled endpoint,
else scan the context's memdevs for one whose devname equals the endpoint's
host; on a match, warn if the memdev already links a different endpoint, then
cache the link in both directions (again overwriting unconditionally). -/
def cxl_endpoint_get_memdev (t : Topo) (ep : EpRec) : MdResolution :=
  match t.epMemdev ep.id with
  | some m => ⟨some m, t, false⟩
  | none =>
    if t.epEnabled ep.id then
      match t.memdevs.find? (fun md => md.name = ep.host) with
      | none => ⟨none, t, false⟩
      | some md =>
        let warned : Bool :=
          match t.mdEndpoint md.id with
          | some e => decide (e ≠ ep.id)
          | none => false
        ⟨some md.id,
         { t with
             epMemdev := updMap t.epMemdev ep.id (some md.id)
             mdEndpoint := updMap t.mdEndpoint md.id (some ep.id) },
         warned⟩
    else ⟨none, t, false⟩

/-- cxl_endpoint_get_bus, via cxl_port_get_bus on the endpoint's port: the C
first refuses a driver-unbound port (the cxl_port_is_enabled guard, an
external check modelled by the epEnabled map), then walks parent pointers up
to the root port — here, the root of the port tree the endpoint sits under —
and caches it (a pure memoization, not modelled). -/
def cxl_endpoint_get_bus (epEnabled : Nat → Bool) (buses : List BusRec)
    (eid : Nat) : Option Nat :=
  if epEnabled eid then
    (buses.find? (fun b => treeHasEp b.children eid)).map BusRec.id
  else none

/-- cxl_memdev_get_bus: resolve the endpoint, then its bus. -/
def cxl_memdev_get_bus (t : Topo) (d : MdRec) : Option Nat × Topo :=
  let r := cxl_memdev_get_endpoint t d
  match r.res with
  | none => (none, r.topo)
  | some e => (cxl_endpoint_get_bus r.topo.epEnabled r.topo.buses e, r.topo)

/-- The cxl_memdev_foreach loop of bus_invalidate: clear the endpoint cache
of every memdev whose resolved bus is the invalidated one. -/
def invalidateLoop (bid : Nat) : Topo → List MdRec → Topo
  | t, [] => t
  | t, md :: rest =>
    let r := cxl_memdev_get_bus t md
    let t1 :=
      if r.1 = some bid then
        { r.2 with mdEndpoint := updMap r.2.mdEndpoint md.id none }
      else r.2
    invalidateLoop bid t1 rest

/-- bus_invalidate: clear affected endpoint caches, destroy the bus's child
port subtree, reset its ports-initialized flag, and issue the external flush
notification. The context's memdev and bus collections stay in place. -/
def bus_invalidate (t : Topo) (bid : Nat) : Topo :=
  let t1 := invalidateLoop bid t t.memdevs
  { t1 with
      buses := t1.buses.map (fun b =>
        if b.id = bid then { b with children := [], ports_init := false } else b)
      flushed := true }

/-! ## Specification-side descriptions of the chunk loop -/

/-- The chunk list a transfer of L bytes at a base offset decomposes into,
with per-chunk capacity C: each chunk covers min(C, remaining) bytes at the
running offset. The first argument after C is fuel; chunks passes L, which
suffices whenever C is positive. -/
def chunksF (C : Nat) : Nat → Nat → Nat → List (Nat × Nat)
  | _, _, 0 => []
  | 0, _, _ + 1 => []
  | f + 1, base, r + 1 =>
    let cl := min C (r + 1)
    (base, cl) :: chunksF C f (base + cl) (r + 1 - cl)

/-- The chunk decomposition of a length-L window at a base offset. -/
def chunks (C base L : Nat) : List (Nat × Nat) :=
  chunksF C L base L

/-- The return code one __lsa_op chunk produces from its transaction outcome:
a negative transport code is passed through, a non-zero device status maps to
-ENXIO, anything else succeeds. -/
def chunkRes (res : SubmitRes) : Int :=
  if res.rc < 0 then res.rc else if res.retval ≠ 0 then -6 else 0

/-- Index of the first chunk whose transaction fails under the oracle. -/
def firstFail (ω : Nat → Nat → SubmitRes) : List (Nat × Nat) → Option Nat
  | [] => none
  | c :: rest =>
    if chunkRes (ω c.1 c.2) ≠ 0 then some 0
    else (firstFail ω rest).map (· + 1)

/-- A capability table advertising GET_LSA (with its 8-byte input header) and
SET_LSA, as a label-capable device reports; used by concrete instances. -/
def capsLsa : List CommandInfo :=
  [⟨CXL_MEM_COMMAND_ID_GET_LSA, 0, 8, 0⟩, ⟨CXL_MEM_COMMAND_ID_SET_LSA, 0, 0, 0⟩]

/-- A transport oracle whose every transaction succeeds. -/
def okOracle : Nat → Nat → SubmitRes :=
  fun _ _ => ⟨0, 0, []⟩

/-! ## Concrete instances used by witnesses and counterexamples -/

/-- A capability table whose single entry is GET_LSA with an 8-byte input and
a 32-byte output. -/
def caps7 : List CommandInfo := [⟨CXL_MEM_COMMAND_ID_GET_LSA, 0, 8, 32⟩]

/-- A read-label command freshly built (and never submitted) against a device
with payload_max 1024 and the caps7 table, for a 16-byte window at offset 0. -/
def c7cmd : CxlCmd :=
  ((cxl_cmd_new_read_label 1024 caps7 0 16).1).getD (cxl_cmd_new 0)

/-- An identify output payload whose total_capacity field (bytes 16..23)
holds raw value 4. -/
def w8buf1 : List Nat :=
  List.replicate 16 0 ++ [4, 0, 0, 0, 0, 0, 0, 0] ++ List.replicate 40 0

/-- A get-partition output payload whose active_volatile field holds raw 4. -/
def w8buf2 : List Nat :=
  [4, 0, 0, 0, 0, 0, 0, 0] ++ List.replicate 24 0

/-- A completed identify command carrying w8buf1. -/
def w8cmd1 : CxlCmd :=
  { payload_max := 1024
    query_cmd := none
    send_cmd := some ⟨CXL_MEM_COMMAND_ID_IDENTIFY, 0, .null, 64, .owned, 0⟩
    input_payload := none
    output_payload := some w8buf1
    query_status := .ok
    query_idx := 0
    status := 0 }

/-- A completed get-partition command carrying w8buf2. -/
def w8cmd2 : CxlCmd :=
  { payload_max := 1024
    query_cmd := none
    send_cmd := some ⟨CXL_MEM_COMMAND_ID_GET_PARTITION_INFO, 0, .null, 32, .owned, 0⟩
    input_payload := none
    output_payload := some w8buf2
    query_status := .ok
    query_idx := 0
    status := 0 }

/-- A topology in which endpoint 5 (host devname 101) is already linked to
memdev 0, while memdev 1 carries devname 101 and has no cached endpoint. -/
def t5 : Topo :=
  { memdevs := [⟨0, 100⟩, ⟨1, 101⟩]
    buses := [⟨0, true, [PTree.node 2 [⟨5, 101⟩] []]⟩]
    mdEnabled := fun _ => true
    epEnabled := fun _ => true
    mdEndpoint := fun _ => none
    epMemdev := fun i => if i = 5 then some 0 else none
    flushed := false }

/-- A topology in which memdev 2 (devname 200) already links endpoint 9,
while endpoint 6 with host 200 has no cached memdev. -/
def t5b : Topo :=
  { memdevs := [⟨2, 200⟩]
    buses := [⟨1, true, [PTree.node 3 [⟨6, 200⟩] []]⟩]
    mdEnabled := fun _ => true
    epEnabled := fun _ => true
    mdEndpoint := fun i => if i = 2 then some 9 else none
    epMemdev := fun _ => none
    flushed := false }

/-- A topology with one enabled memdev (id 0, devname 50) whose endpoint
(id 7) sits under bus 3, nothing cached yet; every other memdev id reads as
driver-unbound. -/
def t6 : Topo :=
  { memdevs := [⟨0, 50⟩]
    buses := [⟨3, true, [PTree.node 4 [⟨7, 50⟩] []]⟩]
    mdEnabled := fun i => decide (i = 0)
    epEnabled := fun _ => true
    mdEndpoint := fun _ => none
    epMemdev := fun _ => none
    flushed := false }

/-- A topology with two resolved memdevs: memdev 0 cached to endpoint 7 under
bus 3, memdev 1 cached to endpoint 8 under bus 4. -/
def t9 : Topo :=
  { memdevs := [⟨0, 50⟩, ⟨1, 51⟩]
    buses := [⟨3, true, [PTree.node 5 [⟨7, 50⟩] []]⟩,
              ⟨4, true, [PTree.node 6 [⟨8, 51⟩] []]⟩]
    mdEnabled := fun _ => true
    epEnabled := fun _ => true
    mdEndpoint := fun i => if i = 0 then some 7 else if i = 1 then some 8 else none
    epMemdev := fun i => if i = 7 then some 0 else if i = 8 then some 1 else none
    flushed := false }

/-! ## Helper lemmas about the byte-buffer primitives -/

lemma length_writeLE : ∀ (n : Nat) (buf : List Nat) (off v : Nat),
    (writeLE buf off v n).length = buf.length := by
  intro n
  induction n with
  | zero => intro buf off v; rfl
  | succ n ih =>
    intro buf off v
    simp only [writeLE, ih, List.length_set]

lemma getD_writeLE_lt : ∀ (n : Nat) (buf : List Nat) (off v j d : Nat),
    j < off → (writeLE buf off v n).getD j d = buf.getD j d := by
  intro n
  induction n with
  | zero => intro buf off v j d _; rfl
  | succ n ih =>
    intro buf off v j d hj
    simp only [writeLE]
    rw [ih _ _ _ _ _ (Nat.lt_succ_of_lt hj)]
    simp only [List.getD_eq_getElem?_getD]
    rw [List.getElem?_set_ne (Nat.ne_of_gt hj)]

lemma readLE_writeLE : ∀ (n : Nat) (buf : List Nat) (off v : Nat),
    off + n ≤ buf.length →
    readLE (writeLE buf off v n) off n = v % 256 ^ n := by
  intro n
  induction n with
  | zero => intro buf off v _; simp [readLE, writeLE, Nat.mod_one]
  | succ n ih =>
    intro buf off v h
    have hofflt : off < buf.length := by omega
    simp only [writeLE, readLE]
    rw [getD_writeLE_lt _ _ _ _ _ _ (Nat.lt_succ_self off)]
    have h1 : (buf.set off (v % 256)).getD off 0 = v % 256 := by
      simp [List.getD_eq_getElem?_getD, List.getElem?_set_self hofflt]
    have h2 : readLE (writeLE (buf.set off (v % 256)) (off + 1) (v / 256) n)
        (off + 1) n = v / 256 % 256 ^ n := by
      apply ih
      simp only [List.length_set]
      omega
    rw [h1, h2, pow_succ, mul_comm (256 ^ n) 256, Nat.mod_mul]

/-! ## C8: capacity conversion -/

/-- C8: every capacity-like accessor (identify total/volatile/persistent
capacity and partition alignment; partition active/next volatile/persistent
sizes) exposes the little-endian wire value of its 8-byte field multiplied by
268435456 in 64-bit arithmetic, and a raw value of 4 yields 1073741824
bytes. -/
theorem capacity_conversion (cmd1 cmd2 : CxlCmd) (sc1 sc2 : SendCmd)
    (buf1 buf2 : List Nat)
    (h1 : cmd1.send_cmd = some sc1) (h1id : sc1.id = CXL_MEM_COMMAND_ID_IDENTIFY)
    (h1st : 0 ≤ cmd1.status) (h1buf : cmd1.output_payload = some buf1)
    (h2 : cmd2.send_cmd = some sc2)
    (h2id : sc2.id = CXL_MEM_COMMAND_ID_GET_PARTITION_INFO)
    (h2st : 0 ≤ cmd2.status) (h2buf : cmd2.output_payload = some buf2) :
    cxl_cmd_identify_get_total_size cmd1 = readLE buf1 16 8 * 268435456 % 2 ^ 64 ∧
    cxl_cmd_identify_get_volatile_only_size cmd1 = readLE buf1 24 8 * 268435456 % 2 ^ 64 ∧
    cxl_cmd_identify_get_persistent_only_size cmd1 = readLE buf1 32 8 * 268435456 % 2 ^ 64 ∧
    cxl_cmd_identify_get_partition_align cmd1 = readLE buf1 40 8 * 268435456 % 2 ^ 64 ∧
    cxl_cmd_partition_get_active_volatile_size cmd2 = readLE buf2 0 8 * 268435456 % 2 ^ 64 ∧
    cxl_cmd_partition_get_active_persistent_size cmd2 = readLE buf2 8 8 * 268435456 % 2 ^ 64 ∧
    cxl_cmd_partition_get_next_volatile_size cmd2 = readLE buf2 16 8 * 268435456 % 2 ^ 64 ∧
    cxl_cmd_partition_get_next_persistent_size cmd2 = readLE buf2 24 8 * 268435456 % 2 ^ 64 ∧
    cxl_capacity_to_bytes 4 = 1073741824 := by
  have hv1 : cxl_cmd_validate_status cmd1 CXL_MEM_COMMAND_ID_IDENTIFY = 0 := by
    simp [cxl_cmd_validate_status, h1, h1id, not_lt.mpr h1st]
  have hv2 : cxl_cmd_validate_status cmd2 CXL_MEM_COMMAND_ID_GET_PARTITION_INFO = 0 := by
    simp [cxl_cmd_validate_status, h2, h2id, not_lt.mpr h2st]
  refine ⟨?_, ?_, ?_, ?_, ?_, ?_, ?_, ?_, by decide⟩ <;>
    simp [cxl_cmd_identify_get_total_size, cxl_cmd_identify_get_volatile_only_size,
      cxl_cmd_identify_get_persistent_only_size, cxl_cmd_identify_get_partition_align,
      cxl_cmd_partition_get_active_volatile_size, cxl_cmd_partition_get_active_persistent_size,
      cxl_cmd_partition_get_next_volatile_size, cxl_cmd_partition_get_next_persistent_size,
      cmd_to_identify, cmd_to_get_partition, hv1, hv2, h1buf, h2buf,
      cxl_capacity_to_bytes, CXL_CAPACITY_MULTIPLIER]

/-- Witness for C8 at a concrete identify/partition command pair whose raw
capacity fields hold 4. -/
theorem capacity_conversion_witness :
    cxl_cmd_identify_get_total_size w8cmd1 = readLE w8buf1 16 8 * 268435456 % 2 ^ 64 ∧
    cxl_cmd_identify_get_volatile_only_size w8cmd1 = readLE w8buf1 24 8 * 268435456 % 2 ^ 64 ∧
    cxl_cmd_identify_get_persistent_only_size w8cmd1 = readLE w8buf1 32 8 * 268435456 % 2 ^ 64 ∧
    cxl_cmd_identify_get_partition_align w8cmd1 = readLE w8buf1 40 8 * 268435456 % 2 ^ 64 ∧
    cxl_cmd_partition_get_active_volatile_size w8cmd2 = readLE w8buf2 0 8 * 268435456 % 2 ^ 64 ∧
    cxl_cmd_partition_get_active_persistent_size w8cmd2 = readLE w8buf2 8 8 * 268435456 % 2 ^ 64 ∧
    cxl_cmd_partition_get_next_volatile_size w8cmd2 = readLE w8buf2 16 8 * 268435456 % 2 ^ 64 ∧
    cxl_cmd_partition_get_next_persistent_size w8cmd2 = readLE w8buf2 24 8 * 268435456 % 2 ^ 64 ∧
    cxl_capacity_to_bytes 4 = 1073741824 :=
  capacity_conversion w8cmd1 w8cmd2 _ _ w8buf1 w8buf2 rfl rfl (by decide) rfl rfl rfl
    (by decide) rfl

/-! ## C3: absent command id means a terminal unsupported outcome -/

/-- C3: when the device's capability table has no entry with the requested
id, cxl_cmd_new_generic fails with -EOPNOTSUPP, the command's query status is
unsupported at the failure point, no send descriptor or payload buffer has
been allocated, the channel saw only the two query ioctls and no send; and
submitting any command whose query status is unsupported fails with the same
-EOPNOTSUPP without touching the channel. -/
theorem unsupported_command (pmax : Nat) (caps : List CommandInfo) (X : Nat)
    (h : ∀ ci ∈ caps, ci.id ≠ X) :
    (cxl_cmd_new_generic pmax caps X).1 = -95 ∧
    (cxl_cmd_new_generic pmax caps X).2.1.query_status = QueryStatus.unsupported ∧
    (cxl_cmd_new_generic pmax caps X).2.1.send_cmd = none ∧
    (cxl_cmd_new_generic pmax caps X).2.1.input_payload = none ∧
    (cxl_cmd_new_generic pmax caps X).2.1.output_payload = none ∧
    (cxl_cmd_new_generic pmax caps X).2.2 = [IoOp.queryCall 0, IoOp.queryCall caps.length] ∧
    (∀ io ∈ (cxl_cmd_new_generic pmax caps X).2.2, io.isSend = false) ∧
    (∀ (res : SubmitRes) (cmd : CxlCmd), cmd.query_status = QueryStatus.unsupported →
      cxl_cmd_submit res cmd = (-95, cmd, [])) := by
  have hfind : caps.findIdx? (fun ci => ci.id = X) = none := by
    rw [List.findIdx?_eq_none_iff]
    intro x hx
    simpa using h x hx
  have hmain : cxl_cmd_new_generic pmax caps X =
      (-95,
       { cxl_cmd_new pmax with
           query_cmd := some ⟨caps.length, caps.take caps.length⟩
           query_status := .unsupported },
       [IoOp.queryCall 0, IoOp.queryCall caps.length]) := by
    simp [cxl_cmd_new_generic, cxl_cmd_do_query, cxl_cmd_new, alloc_do_query,
      cxl_cmd_validate, hfind]
  refine ⟨?_, ?_, ?_, ?_, ?_, ?_, ?_, ?_⟩
  · rw [hmain]
  · rw [hmain]
  · rw [hmain]; rfl
  · rw [hmain]; rfl
  · rw [hmain]; rfl
  · rw [hmain]
  · rw [hmain]
    intro io hio
    simp only [List.mem_cons, List.not_mem_nil, or_false] at hio
    rcases hio with rfl | rfl <;> rfl
  · intro res cmd hq
    simp [cxl_cmd_submit, hq]

/-- Witness for C3: a device advertising only command 1, asked for command 2. -/
theorem unsupported_command_witness :
    (cxl_cmd_new_generic 1024 [⟨1, 0, 0, 0⟩] 2).1 = -95 ∧
    (cxl_cmd_new_generic 1024 [⟨1, 0, 0, 0⟩] 2).2.1.query_status = QueryStatus.unsupported ∧
    (cxl_cmd_new_generic 1024 [⟨1, 0, 0, 0⟩] 2).2.1.send_cmd = none ∧
    (cxl_cmd_new_generic 1024 [⟨1, 0, 0, 0⟩] 2).2.1.input_payload = none ∧
    (cxl_cmd_new_generic 1024 [⟨1, 0, 0, 0⟩] 2).2.1.output_payload = none ∧
    (cxl_cmd_new_generic 1024 [⟨1, 0, 0, 0⟩] 2).2.2 =
      [IoOp.queryCall 0, IoOp.queryCall (List.length [(⟨1, 0, 0, 0⟩ : CommandInfo)])] ∧
    (∀ io ∈ (cxl_cmd_new_generic 1024 [⟨1, 0, 0, 0⟩] 2).2.2, io.isSend = false) ∧
    (∀ (res : SubmitRes) (cmd : CxlCmd), cmd.query_status = QueryStatus.unsupported →
      cxl_cmd_submit res cmd = (-95, cmd, [])) :=
  unsupported_command 1024 [⟨1, 0, 0, 0⟩] 2 (by decide)

/-! ## C4: the capability-query cache lives in the command, not the device -/

/-- Counterexample to C4 as stated: struct cxl_memdev carries no capability
cache, so after a first command against a device has completed its query
successfully (left conjunct), building a second command against that same
device still issues the two query ioctls on the channel (right conjuncts) —
it does not skip re-querying and does not reuse the first command's table. -/
theorem per_device_query_cache_counterexample :
    (cxl_cmd_new_generic 1024 [⟨1, 0, 0, 0⟩] 1).1 = 0 ∧
    (cxl_cmd_new_generic 1024 [⟨1, 0, 0, 0⟩] 1).2.1.query_status = QueryStatus.ok ∧
    (cxl_cmd_new_generic 1024 [⟨1, 0, 0, 0⟩] 1).2.2 =
      [IoOp.queryCall 0, IoOp.queryCall 1] ∧
    (cxl_cmd_new_generic 1024 [⟨1, 0, 0, 0⟩] 1).2.2 ≠ [] := by decide

/-- The channel trace of cxl_cmd_new_generic is exactly the trace of its
capability query: validation and send allocation never touch the channel. -/
lemma new_generic_trace (pmax : Nat) (caps : List CommandInfo) (cmd_id : Nat) :
    (cxl_cmd_new_generic pmax caps cmd_id).2.2 =
      (cxl_cmd_do_query caps (cxl_cmd_new pmax)).2.2 := by
  unfold cxl_cmd_new_generic
  by_cases h1 : (cxl_cmd_do_query caps (cxl_cmd_new pmax)).1 ≠ 0 <;>
    by_cases h2 : (cxl_cmd_validate (cxl_cmd_do_query caps (cxl_cmd_new pmax)).2.1 cmd_id).1 ≠ 0 <;>
    by_cases h3 : (cxl_cmd_alloc_send
        (cxl_cmd_validate (cxl_cmd_do_query caps (cxl_cmd_new pmax)).2.1 cmd_id).2 cmd_id).1 ≠ 0 <;>
    simp [h1, h2, h3]

/-- A fresh command's query issues exactly the two-phase ioctl pair. -/
lemma do_query_fresh (caps : List CommandInfo) (pmax : Nat) :
    (cxl_cmd_do_query caps (cxl_cmd_new pmax)).2.2 =
      [IoOp.queryCall 0, IoOp.queryCall caps.length] := by
  simp [cxl_cmd_do_query, cxl_cmd_new, alloc_do_query]

/-- C4 amended: the query cache is per command object — a command whose
query_status is already ok answers cxl_cmd_do_query immediately, unchanged
and with no channel traffic; every freshly built command re-queries (its
channel trace starts with the two query ioctls). -/
theorem per_command_query_cache (caps : List CommandInfo) (cmd : CxlCmd)
    (h : cmd.query_status = QueryStatus.ok) :
    cxl_cmd_do_query caps cmd = (0, cmd, []) ∧
    ∀ pmax cmd_id, ∃ n,
      (cxl_cmd_new_generic pmax caps cmd_id).2.2 =
        [IoOp.queryCall 0, IoOp.queryCall n] := by
  constructor
  · simp [cxl_cmd_do_query, h]
  · intro pmax cmd_id
    rw [new_generic_trace, do_query_fresh]
    exact ⟨caps.length, rfl⟩

/-- Witness for the amended C4 at a command whose query already succeeded. -/
theorem per_command_query_cache_witness :
    cxl_cmd_do_query [⟨1, 0, 0, 0⟩]
        ⟨1024, none, none, none, none, QueryStatus.ok, 0, 0⟩ =
      (0, ⟨1024, none, none, none, none, QueryStatus.ok, 0, 0⟩, []) ∧
    ∀ pmax cmd_id, ∃ n,
      (cxl_cmd_new_generic pmax [⟨1, 0, 0, 0⟩] cmd_id).2.2 =
        [IoOp.queryCall 0, IoOp.queryCall n] :=
  per_command_query_cache [⟨1, 0, 0, 0⟩] ⟨1024, none, none, none, none, QueryStatus.ok, 0, 0⟩ rfl

/-! ## C7: what the output accessors actually check -/

/-- Counterexample to C7 as stated: c7cmd is a freshly built, never submitted
read-label command (its status still holds the construction sentinel 1), yet
the read-label accessor succeeds and parses the payload, returning the
requested length instead of the claimed invalid-argument error; and with a
non-zero positive cached device status (2) the accessor still parses instead
of surfacing that status. -/
theorem accessor_state_counterexample :
    c7cmd.status = 1 ∧
    (cxl_cmd_read_label_get_payload c7cmd 16).1 = 16 ∧
    (cxl_cmd_read_label_get_payload c7cmd 16).1 ≠ -22 ∧
    (cxl_cmd_read_label_get_payload { c7cmd with status := 2 } 16).1 = 16 := by decide

/-- C7 amended: a typed output accessor checks only that the send descriptor
carries the id the command was built for (otherwise -EINVAL) and that the
cached device status is not negative (a negative status is surfaced as the
result; the identify accessors surface ULLONG_MAX). Submission is not
checked: any command with a matching id and non-negative status — including
a merely built one, whose status sentinel is 1 — has its payload parsed. -/
theorem accessor_validation (cmd : CxlCmd) (sc : SendCmd) (len : Nat)
    (hsc : cmd.send_cmd = some sc) :
    (sc.id ≠ CXL_MEM_COMMAND_ID_GET_LSA →
      cxl_cmd_read_label_get_payload cmd len = (-22, [])) ∧
    (sc.id = CXL_MEM_COMMAND_ID_GET_LSA → cmd.status < 0 →
      cxl_cmd_read_label_get_payload cmd len = (cmd.status, [])) ∧
    (sc.id = CXL_MEM_COMMAND_ID_GET_LSA → 0 ≤ cmd.status →
      len ≤ readLE ((readInPayload cmd).getD []) 4 4 →
      cxl_cmd_read_label_get_payload cmd len =
        ((len : Int), takePad ((readOutPayload cmd).getD []) len)) ∧
    (sc.id ≠ CXL_MEM_COMMAND_ID_IDENTIFY →
      cxl_cmd_identify_get_total_size cmd = 2 ^ 64 - 1) ∧
    (sc.id = CXL_MEM_COMMAND_ID_IDENTIFY → cmd.status < 0 →
      cxl_cmd_identify_get_total_size cmd = 2 ^ 64 - 1) ∧
    (∀ buf, sc.id = CXL_MEM_COMMAND_ID_IDENTIFY → 0 ≤ cmd.status →
      cmd.output_payload = some buf →
      cxl_cmd_identify_get_total_size cmd = cxl_capacity_to_bytes (readLE buf 16 8)) := by
  refine ⟨?_, ?_, ?_, ?_, ?_, ?_⟩
  · intro hid
    simp [cxl_cmd_read_label_get_payload, cxl_cmd_validate_status, hsc, hid]
  · intro hid hst
    have : cmd.status ≠ 0 := by omega
    simp [cxl_cmd_read_label_get_payload, cxl_cmd_validate_status, hsc, hid,
      hst, this]
  · intro hid hst hlen
    simp [cxl_cmd_read_label_get_payload, cxl_cmd_validate_status, hsc, hid,
      not_lt.mpr hst, not_lt.mpr hlen]
  · intro hid
    simp [cxl_cmd_identify_get_total_size, cmd_to_identify,
      cxl_cmd_validate_status, hsc, hid]
  · intro hid hst
    have : cmd.status ≠ 0 := by omega
    simp [cxl_cmd_identify_get_total_size, cmd_to_identify,
      cxl_cmd_validate_status, hsc, hid, hst, this]
  · intro buf hid hst hbuf
    simp [cxl_cmd_identify_get_total_size, cmd_to_identify,
      cxl_cmd_validate_status, hsc, hid, not_lt.mpr hst, hbuf]

/-- Witness for the amended C7 at the concrete never-submitted read-label
command c7cmd. -/
theorem accessor_validation_witness :
    ((⟨CXL_MEM_COMMAND_ID_GET_LSA, 8, .owned, 32, .owned, 0⟩ : SendCmd).id ≠
        CXL_MEM_COMMAND_ID_GET_LSA →
      cxl_cmd_read_label_get_payload c7cmd 16 = (-22, [])) ∧
    ((⟨CXL_MEM_COMMAND_ID_GET_LSA, 8, .owned, 32, .owned, 0⟩ : SendCmd).id =
        CXL_MEM_COMMAND_ID_GET_LSA → c7cmd.status < 0 →
      cxl_cmd_read_label_get_payload c7cmd 16 = (c7cmd.status, [])) ∧
    ((⟨CXL_MEM_COMMAND_ID_GET_LSA, 8, .owned, 32, .owned, 0⟩ : SendCmd).id =
        CXL_MEM_COMMAND_ID_GET_LSA → 0 ≤ c7cmd.status →
      16 ≤ readLE ((readInPayload c7cmd).getD []) 4 4 →
      cxl_cmd_read_label_get_payload c7cmd 16 =
        ((16 : Int), takePad ((readOutPayload c7cmd).getD []) 16)) ∧
    ((⟨CXL_MEM_COMMAND_ID_GET_LSA, 8, .owned, 32, .owned, 0⟩ : SendCmd).id ≠
        CXL_MEM_COMMAND_ID_IDENTIFY →
      cxl_cmd_identify_get_total_size c7cmd = 2 ^ 64 - 1) ∧
    ((⟨CXL_MEM_COMMAND_ID_GET_LSA, 8, .owned, 32, .owned, 0⟩ : SendCmd).id =
        CXL_MEM_COMMAND_ID_IDENTIFY → c7cmd.status < 0 →
      cxl_cmd_identify_get_total_size c7cmd = 2 ^ 64 - 1) ∧
    (∀ buf, (⟨CXL_MEM_COMMAND_ID_GET_LSA, 8, .owned, 32, .owned, 0⟩ : SendCmd).id =
        CXL_MEM_COMMAND_ID_IDENTIFY → 0 ≤ c7cmd.status →
      c7cmd.output_payload = some buf →
      cxl_cmd_identify_get_total_size c7cmd = cxl_capacity_to_bytes (readLE buf 16 8)) :=
  accessor_validation c7cmd ⟨CXL_MEM_COMMAND_ID_GET_LSA, 8, .owned, 32, .owned, 0⟩ 16
    (by decide)

/-! ## C2: discovery is idempotent and duplicate-suppressing -/

lemma dedupAdd_subset {ε ν : Type} (build : ε → Option ν) (idOf : ν → Nat)
    (coll : List ν) (e : ε) : coll ⊆ (dedupAdd build idOf coll e).1 := by
  intro x hx
  simp only [dedupAdd]
  rcases hb : build e with _ | node <;> simp only [hb]
  · exact hx
  · rcases hf : coll.find? (fun n => idOf n = idOf node) with _ | dup <;>
      simp only [hf]
    · exact List.mem_cons_of_mem _ hx
    · exact hx

lemma dedupAdd_of_dup {ε ν : Type} (build : ε → Option ν) (idOf : ν → Nat)
    (coll : List ν) (e : ε) (node : ν) (hn : build e = some node)
    (hdup : ∃ m ∈ coll, idOf m = idOf node) :
    (dedupAdd build idOf coll e).1 = coll ∧
    ∃ m ∈ coll, (dedupAdd build idOf coll e).2 = some m ∧ idOf m = idOf node := by
  have hsome : (coll.find? (fun n => idOf n = idOf node)).isSome := by
    rw [List.find?_isSome]
    obtain ⟨m, hm, hid⟩ := hdup
    exact ⟨m, hm, by simp [hid]⟩
  obtain ⟨dup, hdupEq⟩ := Option.isSome_iff_exists.mp hsome
  have hmem : dup ∈ coll := List.mem_of_find?_eq_some hdupEq
  have hid : idOf dup = idOf node := by simpa using List.find?_some hdupEq
  have heq : dedupAdd build idOf coll e = (coll, some dup) := by
    simp only [dedupAdd, hn, hdupEq]
  rw [heq]
  exact ⟨rfl, dup, hmem, rfl, hid⟩

lemma dedupAdd_id_present {ε ν : Type} (build : ε → Option ν) (idOf : ν → Nat)
    (coll : List ν) (e : ε) (node : ν) (hn : build e = some node) :
    ∃ m ∈ (dedupAdd build idOf coll e).1, idOf m = idOf node := by
  simp only [dedupAdd, hn]
  rcases hf : coll.find? (fun n => idOf n = idOf node) with _ | dup <;>
    simp only [hf]
  · exact ⟨node, List.mem_cons_self _ _, rfl⟩
  · exact ⟨dup, List.mem_of_find?_eq_some hf, by simpa using List.find?_some hf⟩

lemma scan_mem_mono {ε ν : Type} (build : ε → Option ν) (idOf : ν → Nat) :
    ∀ (es : List ε) (coll : List ν) (x : ν), x ∈ coll →
      x ∈ sysfs_device_parse (dedupAdd build idOf) coll es := by
  intro es
  induction es with
  | nil => intro coll x hx; exact hx
  | cons e rest ih =>
    intro coll x hx
    exact ih _ _ (dedupAdd_subset build idOf coll e hx)

lemma scan_covers {ε ν : Type} (build : ε → Option ν) (idOf : ν → Nat) :
    ∀ (es : List ε) (coll : List ν), ∀ e ∈ es, ∀ node, build e = some node →
      ∃ m ∈ sysfs_device_parse (dedupAdd build idOf) coll es, idOf m = idOf node := by
  intro es
  induction es with
  | nil => intro coll e he; cases he
  | cons e0 rest ih =>
    intro coll e he node hn
    rcases List.mem_cons.mp he with rfl | hrest
    · obtain ⟨m, hm, hid⟩ := dedupAdd_id_present build idOf coll e node hn
      exact ⟨m, scan_mem_mono build idOf rest _ m hm, hid⟩
    · exact ih _ e hrest node hn

lemma scan_stable {ε ν : Type} (build : ε → Option ν) (idOf : ν → Nat) :
    ∀ (es : List ε) (coll : List ν),
      (∀ e ∈ es, ∀ node, build e = some node → ∃ m ∈ coll, idOf m = idOf node) →
      sysfs_device_parse (dedupAdd build idOf) coll es = coll := by
  intro es
  induction es with
  | nil => intro coll _; rfl
  | cons e rest ih =>
    intro coll h
    have hstep : (dedupAdd build idOf coll e).1 = coll := by
      rcases hn : build e with _ | node
      · simp only [dedupAdd, hn]
      · exact (dedupAdd_of_dup build idOf coll e node hn
          (h e (List.mem_cons_self _ _) node hn)).1
    show sysfs_device_parse (dedupAdd build idOf) (dedupAdd build idOf coll e).1 rest = coll
    rw [hstep]
    exact ih coll (fun e' he' => h e' (List.mem_cons_of_mem _ he'))

lemma dedupAdd_nodup {ε ν : Type} (build : ε → Option ν) (idOf : ν → Nat)
    (coll : List ν) (e : ε) (h : (coll.map idOf).Nodup) :
    ((dedupAdd build idOf coll e).1.map idOf).Nodup := by
  simp only [dedupAdd]
  rcases hb : build e with _ | node <;> simp only [hb]
  · exact h
  · rcases hf : coll.find? (fun n => idOf n = idOf node) with _ | dup <;>
      simp only [hf]
    · simp only [List.map_cons, List.nodup_cons]
      refine ⟨?_, h⟩
      intro hmem
      obtain ⟨m, hm, hid⟩ := List.mem_map.mp hmem
      have := List.find?_eq_none.mp hf m hm
      simp [hid] at this
    · exact h

lemma scan_nodup {ε ν : Type} (build : ε → Option ν) (idOf : ν → Nat) :
    ∀ (es : List ε) (coll : List ν), (coll.map idOf).Nodup →
      ((sysfs_device_parse (dedupAdd build idOf) coll es).map idOf).Nodup := by
  intro es
  induction es with
  | nil => intro coll h; exact h
  | cons e rest ih =>
    intro coll h
    exact ih _ (dedupAdd_nodup build idOf coll e h)

/-- C2: discovery is idempotent and duplicate-suppressing, for the
context-level memdev collection and a port's child-port collection:
re-running the guarded init is a no-op (the flag makes the second pass a
cache hit); even the raw rescan of the same external entries leaves the
collection unchanged; distinctness of ids is preserved by a scan; and adding
an entry whose id already exists returns the existing node and leaves the
collection untouched. -/
theorem discovery_idempotent (ext : List MemdevEntry) (ctx : CtxMemdevs)
    (extp : List PortEntry) (p : PortChildren)
    (collm : List Memdev) (collp : List Port)
    (e : MemdevEntry) (ep : PortEntry) (nodem : Memdev) (nodep : Port)
    (hnm : (collm.map Memdev.id).Nodup) (hnp : (collp.map Port.id).Nodup)
    (hbm : buildMemdev e = some nodem) (hdm : ∃ m ∈ collm, m.id = nodem.id)
    (hbp : buildPort ep = some nodep) (hdp : ∃ m ∈ collp, m.id = nodep.id) :
    cxl_memdevs_init ext (cxl_memdevs_init ext ctx) = cxl_memdevs_init ext ctx ∧
    cxl_ports_init extp (cxl_ports_init extp p) = cxl_ports_init extp p ∧
    sysfs_device_parse add_cxl_memdev
        (sysfs_device_parse add_cxl_memdev collm ext) ext =
      sysfs_device_parse add_cxl_memdev collm ext ∧
    sysfs_device_parse add_cxl_port
        (sysfs_device_parse add_cxl_port collp extp) extp =
      sysfs_device_parse add_cxl_port collp extp ∧
    ((sysfs_device_parse add_cxl_memdev collm ext).map Memdev.id).Nodup ∧
    ((sysfs_device_parse add_cxl_port collp extp).map Port.id).Nodup ∧
    ((add_cxl_memdev collm e).1 = collm ∧
      ∃ m ∈ collm, (add_cxl_memdev collm e).2 = some m ∧ m.id = nodem.id) ∧
    ((add_cxl_port collp ep).1 = collp ∧
      ∃ m ∈ collp, (add_cxl_port collp ep).2 = some m ∧ m.id = nodep.id) := by
  refine ⟨?_, ?_, ?_, ?_, ?_, ?_, ?_, ?_⟩
  · unfold cxl_memdevs_init
    rcases h : ctx.memdevs_init <;> simp [h]
  · unfold cxl_ports_init
    rcases h : p.ports_init <;> simp [h]
  · exact scan_stable buildMemdev Memdev.id ext _
      (fun e' he' node hn => scan_covers buildMemdev Memdev.id ext collm e' he' node hn)
  · exact scan_stable buildPort Port.id extp _
      (fun e' he' node hn => scan_covers buildPort Port.id extp collp e' he' node hn)
  · exact scan_nodup buildMemdev Memdev.id ext collm hnm
  · exact scan_nodup buildPort Port.id extp collp hnp
  · exact dedupAdd_of_dup buildMemdev Memdev.id collm e nodem hbm hdm
  · exact dedupAdd_of_dup buildPort Port.id collp ep nodep hbp hdp

/-- Witness for C2 at concrete collections containing a duplicate id. -/
theorem discovery_idempotent_witness :
    cxl_memdevs_init [⟨5, true, 9, 9, 9, 9⟩, ⟨5, true, 8, 8, 8, 8⟩]
        (cxl_memdevs_init [⟨5, true, 9, 9, 9, 9⟩, ⟨5, true, 8, 8, 8, 8⟩] ⟨false, []⟩) =
      cxl_memdevs_init [⟨5, true, 9, 9, 9, 9⟩, ⟨5, true, 8, 8, 8, 8⟩] ⟨false, []⟩ ∧
    cxl_ports_init [⟨7, some 3⟩] (cxl_ports_init [⟨7, some 3⟩] ⟨false, []⟩) =
      cxl_ports_init [⟨7, some 3⟩] ⟨false, []⟩ ∧
    sysfs_device_parse add_cxl_memdev
        (sysfs_device_parse add_cxl_memdev [⟨5, 1, 2, 3, 4⟩]
          [⟨5, true, 9, 9, 9, 9⟩, ⟨5, true, 8, 8, 8, 8⟩])
        [⟨5, true, 9, 9, 9, 9⟩, ⟨5, true, 8, 8, 8, 8⟩] =
      sysfs_device_parse add_cxl_memdev [⟨5, 1, 2, 3, 4⟩]
        [⟨5, true, 9, 9, 9, 9⟩, ⟨5, true, 8, 8, 8, 8⟩] ∧
    sysfs_device_parse add_cxl_port
        (sysfs_device_parse add_cxl_port [⟨7, 2⟩] [⟨7, some 3⟩]) [⟨7, some 3⟩] =
      sysfs_device_parse add_cxl_port [⟨7, 2⟩] [⟨7, some 3⟩] ∧
    ((sysfs_device_parse add_cxl_memdev [⟨5, 1, 2, 3, 4⟩]
        [⟨5, true, 9, 9, 9, 9⟩, ⟨5, true, 8, 8, 8, 8⟩]).map Memdev.id).Nodup ∧
    ((sysfs_device_parse add_cxl_port [⟨7, 2⟩] [⟨7, some 3⟩]).map Port.id).Nodup ∧
    ((add_cxl_memdev [⟨5, 1, 2, 3, 4⟩] ⟨5, true, 9, 9, 9, 9⟩).1 = [⟨5, 1, 2, 3, 4⟩] ∧
      ∃ m ∈ [(⟨5, 1, 2, 3, 4⟩ : Memdev)],
        (add_cxl_memdev [⟨5, 1, 2, 3, 4⟩] ⟨5, true, 9, 9, 9, 9⟩).2 = some m ∧
        m.id = (⟨5, 9, 9, 9, 9⟩ : Memdev).id) ∧
    ((add_cxl_port [⟨7, 2⟩] ⟨7, some 3⟩).1 = [⟨7, 2⟩] ∧
      ∃ m ∈ [(⟨7, 2⟩ : Port)],
        (add_cxl_port [⟨7, 2⟩] ⟨7, some 3⟩).2 = some m ∧
        m.id = (⟨7, 3⟩ : Port).id) :=
  discovery_idempotent [⟨5, true, 9, 9, 9, 9⟩, ⟨5, true, 8, 8, 8, 8⟩] ⟨false, []⟩
    [⟨7, some 3⟩] ⟨false, []⟩ [⟨5, 1, 2, 3, 4⟩] [⟨7, 2⟩]
    ⟨5, true, 9, 9, 9, 9⟩ ⟨7, some 3⟩ ⟨5, 9, 9, 9, 9⟩ ⟨7, 3⟩
    (by decide) (by decide) (by decide) ⟨⟨5, 1, 2, 3, 4⟩, by decide, by decide⟩
    (by decide) ⟨⟨7, 2⟩, by decide, by decide⟩

/-! ## C5: the endpoint link is overwritten, not kept -/

/-- Counterexample to C5 as stated: in t5, endpoint 5 already carries a link
to memdev 0; resolving memdev 1 (whose devname matches endpoint 5's host)
logs the consistency warning but then re-points endpoint 5's device link to
memdev 1 — the first-resolved link is not kept. -/
theorem endpoint_link_overwrite_counterexample :
    t5.epMemdev 5 = some 0 ∧
    (cxl_memdev_get_endpoint t5 ⟨1, 101⟩).warned = true ∧
    (cxl_memdev_get_endpoint t5 ⟨1, 101⟩).topo.epMemdev 5 = some 1 := by
  refine ⟨rfl, ?_, ?_⟩ <;>
    simp [cxl_memdev_get_endpoint, t5, searchBuses, cxl_port_find_endpoint,
      updMap, List.find?]

/-- C5 amended: on a host-name match the resolver logs the consistency
warning when the previously cached link disagrees, but then caches the new
link in both directions unconditionally — the later resolution overwrites
the endpoint's existing device link (last writer wins), and symmetrically
for endpoint-to-memdev resolution. -/
theorem endpoint_link_last_writer (t : Topo) (d : MdRec) (e : EpRec)
    (ep : EpRec) (md : MdRec)
    (h1 : t.mdEndpoint d.id = none) (h2 : t.mdEnabled d.id = true)
    (h3 : searchBuses t.buses d.name = some e)
    (h1b : t.epMemdev ep.id = none) (h2b : t.epEnabled ep.id = true)
    (h3b : t.memdevs.find? (fun m => m.name = ep.host) = some md) :
    ((cxl_memdev_get_endpoint t d).res = some e.id ∧
     (cxl_memdev_get_endpoint t d).topo.epMemdev e.id = some d.id ∧
     (cxl_memdev_get_endpoint t d).topo.mdEndpoint d.id = some e.id ∧
     (∀ m, t.epMemdev e.id = some m → m ≠ d.id →
       (cxl_memdev_get_endpoint t d).warned = true)) ∧
    ((cxl_endpoint_get_memdev t ep).res = some md.id ∧
     (cxl_endpoint_get_memdev t ep).topo.mdEndpoint md.id = some ep.id ∧
     (cxl_endpoint_get_memdev t ep).topo.epMemdev ep.id = some md.id ∧
     (∀ e2, t.mdEndpoint md.id = some e2 → e2 ≠ ep.id →
       (cxl_endpoint_get_memdev t ep).warned = true)) := by
  constructor
  · have hmain : cxl_memdev_get_endpoint t d =
        ⟨some e.id,
         { t with
             mdEndpoint := updMap t.mdEndpoint d.id (some e.id)
             epMemdev := updMap t.epMemdev e.id (some d.id) },
         true,
         match t.epMemdev e.id with
         | some m => decide (m ≠ d.id)
         | none => false⟩ := by
      simp [cxl_memdev_get_endpoint, h1, h2, h3]
    refine ⟨?_, ?_, ?_, ?_⟩
    · rw [hmain]
    · rw [hmain]; simp [updMap]
    · rw [hmain]; simp [updMap]
    · intro m hm hne
      rw [hmain]
      simp [hm, hne]
  · have hmain : cxl_endpoint_get_memdev t ep =
        ⟨some md.id,
         { t with
             epMemdev := updMap t.epMemdev ep.id (some md.id)
             mdEndpoint := updMap t.mdEndpoint md.id (some ep.id) },
         match t.mdEndpoint md.id with
         | some e2 => decide (e2 ≠ ep.id)
         | none => false⟩ := by
      simp [cxl_endpoint_get_memdev, h1b, h2b, h3b]
    refine ⟨?_, ?_, ?_, ?_⟩
    · rw [hmain]
    · rw [hmain]; simp [updMap]
    · rw [hmain]; simp [updMap]
    · intro e2 he2 hne
      rw [hmain]
      simp [he2, hne]

/-- Witness for the amended C5 on a topology where both directions resolve
and both prior links disagree. -/
theorem endpoint_link_last_writer_witness :
    ((cxl_memdev_get_endpoint
        ⟨[⟨1, 101⟩, ⟨2, 200⟩], [⟨0, true, [PTree.node 3 [⟨5, 101⟩] []]⟩],
         fun _ => true, fun _ => true,
         fun i => if i = 2 then some 9 else none,
         fun i => if i = 5 then some 0 else none, false⟩ ⟨1, 101⟩).res =
      some (⟨5, 101⟩ : EpRec).id ∧
     (cxl_memdev_get_endpoint
        ⟨[⟨1, 101⟩, ⟨2, 200⟩], [⟨0, true, [PTree.node 3 [⟨5, 101⟩] []]⟩],
         fun _ => true, fun _ => true,
         fun i => if i = 2 then some 9 else none,
         fun i => if i = 5 then some 0 else none, false⟩ ⟨1, 101⟩).topo.epMemdev
        (⟨5, 101⟩ : EpRec).id = some (⟨1, 101⟩ : MdRec).id ∧
     (cxl_memdev_get_endpoint
        ⟨[⟨1, 101⟩, ⟨2, 200⟩], [⟨0, true, [PTree.node 3 [⟨5, 101⟩] []]⟩],
         fun _ => true, fun _ => true,
         fun i => if i = 2 then some 9 else none,
         fun i => if i = 5 then some 0 else none, false⟩ ⟨1, 101⟩).topo.mdEndpoint
        (⟨1, 101⟩ : MdRec).id = some (⟨5, 101⟩ : EpRec).id ∧
     (∀ m, (fun i => if i = 5 then some 0 else none : Nat → Option Nat)
          (⟨5, 101⟩ : EpRec).id = some m → m ≠ (⟨1, 101⟩ : MdRec).id →
       (cxl_memdev_get_endpoint
          ⟨[⟨1, 101⟩, ⟨2, 200⟩], [⟨0, true, [PTree.node 3 [⟨5, 101⟩] []]⟩],
           fun _ => true, fun _ => true,
           fun i => if i = 2 then some 9 else none,
           fun i => if i = 5 then some 0 else none, false⟩ ⟨1, 101⟩).warned = true)) ∧
    ((cxl_endpoint_get_memdev
        ⟨[⟨1, 101⟩, ⟨2, 200⟩], [⟨0, true, [PTree.node 3 [⟨5, 101⟩] []]⟩],
         fun _ => true, fun _ => true,
         fun i => if i = 2 then some 9 else none,
         fun i => if i = 5 then some 0 else none, false⟩ ⟨6, 200⟩).res =
      some (⟨2, 200⟩ : MdRec).id ∧
     (cxl_endpoint_get_memdev
        ⟨[⟨1, 101⟩, ⟨2, 200⟩], [⟨0, true, [PTree.node 3 [⟨5, 101⟩] []]⟩],
         fun _ => true, fun _ => true,
         fun i => if i = 2 then some 9 else none,
         fun i => if i = 5 then some 0 else none, false⟩ ⟨6, 200⟩).topo.mdEndpoint
        (⟨2, 200⟩ : MdRec).id = some (⟨6, 200⟩ : EpRec).id ∧
     (cxl_endpoint_get_memdev
        ⟨[⟨1, 101⟩, ⟨2, 200⟩], [⟨0, true, [PTree.node 3 [⟨5, 101⟩] []]⟩],
         fun _ => true, fun _ => true,
         fun i => if i = 2 then some 9 else none,
         fun i => if i = 5 then some 0 else none, false⟩ ⟨6, 200⟩).topo.epMemdev
        (⟨6, 200⟩ : EpRec).id = some (⟨2, 200⟩ : MdRec).id ∧
     (∀ e2, (fun i => if i = 2 then some 9 else none : Nat → Option Nat)
          (⟨2, 200⟩ : MdRec).id = some e2 → e2 ≠ (⟨6, 200⟩ : EpRec).id →
       (cxl_endpoint_get_memdev
          ⟨[⟨1, 101⟩, ⟨2, 200⟩], [⟨0, true, [PTree.node 3 [⟨5, 101⟩] []]⟩],
           fun _ => true, fun _ => true,
           fun i => if i = 2 then some 9 else none,
           fun i => if i = 5 then some 0 else none, false⟩ ⟨6, 200⟩).warned = true)) :=
  endpoint_link_last_writer
    ⟨[⟨1, 101⟩, ⟨2, 200⟩], [⟨0, true, [PTree.node 3 [⟨5, 101⟩] []]⟩],
     fun _ => true, fun _ => true,
     fun i => if i = 2 then some 9 else none,
     fun i => if i = 5 then some 0 else none, false⟩
    ⟨1, 101⟩ ⟨5, 101⟩ ⟨6, 200⟩ ⟨2, 200⟩
    rfl rfl (by simp [searchBuses, cxl_port_find_endpoint, List.find?])
    rfl rfl (by decide)

/-! ## C6: endpoint resolution is stable and idempotent -/

/-- C6: a disabled device with no cached endpoint resolves to none, leaving
the topology untouched and without walking the bus trees; and once a call has
returned some endpoint, a repeated call answers the same endpoint straight
from the cache — no tree walk, no state change. -/
theorem endpoint_resolution_stable (t : Topo) (d1 d2 : MdRec) (e : Nat)
    (h1 : t.mdEndpoint d1.id = none) (h2 : t.mdEnabled d1.id = false)
    (h3 : (cxl_memdev_get_endpoint t d2).res = some e) :
    cxl_memdev_get_endpoint t d1 = ⟨none, t, false, false⟩ ∧
    cxl_memdev_get_endpoint (cxl_memdev_get_endpoint t d2).topo d2 =
      ⟨some e, (cxl_memdev_get_endpoint t d2).topo, false, false⟩ := by
  constructor
  · simp [cxl_memdev_get_endpoint, h1, h2]
  · rcases hm : t.mdEndpoint d2.id with _ | e0
    · rcases henb : t.mdEnabled d2.id
      · exfalso
        rw [cxl_memdev_get_endpoint] at h3
        simp [hm, henb] at h3
      · rcases hs : searchBuses t.buses d2.name with _ | ep
        · exfalso
          rw [cxl_memdev_get_endpoint] at h3
          simp [hm, henb, hs] at h3
        · have hres : (cxl_memdev_get_endpoint t d2).res = some ep.id := by
            simp [cxl_memdev_get_endpoint, hm, henb, hs]
          have he : ep.id = e := by
            rw [hres] at h3
            exact Option.some.inj h3
          have htopo : (cxl_memdev_get_endpoint t d2).topo =
              { t with
                  mdEndpoint := updMap t.mdEndpoint d2.id (some ep.id)
                  epMemdev := updMap t.epMemdev ep.id (some d2.id) } := by
            simp [cxl_memdev_get_endpoint, hm, henb, hs]
          rw [htopo]
          simp [cxl_memdev_get_endpoint, updMap, he]
    · have hres : (cxl_memdev_get_endpoint t d2).res = some e0 := by
        simp [cxl_memdev_get_endpoint, hm]
      have he : e0 = e := by
        rw [hres] at h3
        exact Option.some.inj h3
      have htopo : (cxl_memdev_get_endpoint t d2).topo = t := by
        simp [cxl_memdev_get_endpoint, hm]
      rw [htopo]
      simp [cxl_memdev_get_endpoint, hm, he]

/-- Witness for C6 on t6: memdev 9 is unbound and unresolved, memdev 0
resolves to endpoint 7 and then re-resolves from the cache. -/
theorem endpoint_resolution_stable_witness :
    cxl_memdev_get_endpoint t6 ⟨9, 99⟩ = ⟨none, t6, false, false⟩ ∧
    cxl_memdev_get_endpoint (cxl_memdev_get_endpoint t6 ⟨0, 50⟩).topo ⟨0, 50⟩ =
      ⟨some 7, (cxl_memdev_get_endpoint t6 ⟨0, 50⟩).topo, false, false⟩ :=
  endpoint_resolution_stable t6 ⟨9, 99⟩ ⟨0, 50⟩ 7 rfl (by decide)
    (by simp [cxl_memdev_get_endpoint, t6, searchBuses, cxl_port_find_endpoint,
      List.find?])

/-! ## C9: bus_invalidate -/

lemma ge_topo_fields (t : Topo) (d : MdRec) :
    (cxl_memdev_get_endpoint t d).topo.buses = t.buses ∧
    (cxl_memdev_get_endpoint t d).topo.memdevs = t.memdevs ∧
    (cxl_memdev_get_endpoint t d).topo.mdEnabled = t.mdEnabled ∧
    (cxl_memdev_get_endpoint t d).topo.epEnabled = t.epEnabled ∧
    (cxl_memdev_get_endpoint t d).topo.flushed = t.flushed ∧
    ∀ i, i ≠ d.id →
      (cxl_memdev_get_endpoint t d).topo.mdEndpoint i = t.mdEndpoint i := by
  rcases hm : t.mdEndpoint d.id with _ | e0
  · rcases henb : t.mdEnabled d.id
    · simp [cxl_memdev_get_endpoint, hm, henb]
    · rcases hs : searchBuses t.buses d.name with _ | ep
      · simp [cxl_memdev_get_endpoint, hm, henb, hs]
      · refine ⟨?_, ?_, ?_, ?_, ?_, ?_⟩ <;>
          simp [cxl_memdev_get_endpoint, hm, henb, hs, updMap]
        intro i hi
        simp [hi]
  · simp [cxl_memdev_get_endpoint, hm]

lemma ge_res_congr (t t' : Topo) (d : MdRec)
    (hm : t'.mdEndpoint d.id = t.mdEndpoint d.id)
    (he : t'.mdEnabled = t.mdEnabled) (hb : t'.buses = t.buses) :
    (cxl_memdev_get_endpoint t' d).res = (cxl_memdev_get_endpoint t d).res := by
  unfold cxl_memdev_get_endpoint
  rw [hm, he, hb]
  rcases t.mdEndpoint d.id with _ | e0
  · rcases t.mdEnabled d.id
    · simp
    · rcases searchBuses t.buses d.name with _ | ep <;> simp
  · simp

lemma ge_post (t : Topo) (d : MdRec) :
    (cxl_memdev_get_endpoint t d).topo.mdEndpoint d.id =
      (cxl_memdev_get_endpoint t d).res := by
  rcases hm : t.mdEndpoint d.id with _ | e0
  · rcases henb : t.mdEnabled d.id
    · simp [cxl_memdev_get_endpoint, hm, henb]
    · rcases hs : searchBuses t.buses d.name with _ | ep
      · simp [cxl_memdev_get_endpoint, hm, henb, hs]
      · simp [cxl_memdev_get_endpoint, hm, henb, hs, updMap]
  · simp [cxl_memdev_get_endpoint, hm]

lemma gb_topo (t : Topo) (d : MdRec) :
    (cxl_memdev_get_bus t d).2 = (cxl_memdev_get_endpoint t d).topo := by
  unfold cxl_memdev_get_bus
  rcases h : (cxl_memdev_get_endpoint t d).res with _ | e <;> simp [h]

lemma gb_res (t : Topo) (d : MdRec) :
    (cxl_memdev_get_bus t d).1 =
      (match (cxl_memdev_get_endpoint t d).res with
       | none => none
       | some e => cxl_endpoint_get_bus t.epEnabled t.buses e) := by
  unfold cxl_memdev_get_bus
  rcases h : (cxl_memdev_get_endpoint t d).res with _ | e <;>
    simp [h, (ge_topo_fields t d).1, (ge_topo_fields t d).2.2.2.1]

lemma invalidateLoop_fields (bid : Nat) :
    ∀ (l : List MdRec) (t : Topo),
      (invalidateLoop bid t l).buses = t.buses ∧
      (invalidateLoop bid t l).memdevs = t.memdevs ∧
      (invalidateLoop bid t l).mdEnabled = t.mdEnabled ∧
      (invalidateLoop bid t l).epEnabled = t.epEnabled ∧
      (invalidateLoop bid t l).flushed = t.flushed := by
  intro l
  induction l with
  | nil => intro t; exact ⟨rfl, rfl, rfl, rfl, rfl⟩
  | cons md rest ih =>
    intro t
    have hstepB : (cxl_memdev_get_bus t md).2.buses = t.buses := by
      rw [gb_topo]; exact (ge_topo_fields t md).1
    have hstepM : (cxl_memdev_get_bus t md).2.memdevs = t.memdevs := by
      rw [gb_topo]; exact (ge_topo_fields t md).2.1
    have hstepE : (cxl_memdev_get_bus t md).2.mdEnabled = t.mdEnabled := by
      rw [gb_topo]; exact (ge_topo_fields t md).2.2.1
    have hstepE2 : (cxl_memdev_get_bus t md).2.epEnabled = t.epEnabled := by
      rw [gb_topo]; exact (ge_topo_fields t md).2.2.2.1
    have hstepF : (cxl_memdev_get_bus t md).2.flushed = t.flushed := by
      rw [gb_topo]; exact (ge_topo_fields t md).2.2.2.2.1
    show (invalidateLoop bid _ rest).buses = t.buses ∧ _
    rcases hcl : decide ((cxl_memdev_get_bus t md).1 = some bid) with _ | _
    · have hif : (if (cxl_memdev_get_bus t md).1 = some bid then
          { (cxl_memdev_get_bus t md).2 with
              mdEndpoint := updMap (cxl_memdev_get_bus t md).2.mdEndpoint md.id none }
          else (cxl_memdev_get_bus t md).2) = (cxl_memdev_get_bus t md).2 := by
        rw [if_neg (of_decide_eq_false hcl)]
      simp only [invalidateLoop, hif]
      obtain ⟨b1, b2, b3, b4, b5⟩ := ih (cxl_memdev_get_bus t md).2
      exact ⟨b1.trans hstepB, b2.trans hstepM, b3.trans hstepE,
        b4.trans hstepE2, b5.trans hstepF⟩
    · have hif : (if (cxl_memdev_get_bus t md).1 = some bid then
          { (cxl_memdev_get_bus t md).2 with
              mdEndpoint := updMap (cxl_memdev_get_bus t md).2.mdEndpoint md.id none }
          else (cxl_memdev_get_bus t md).2) =
          { (cxl_memdev_get_bus t md).2 with
              mdEndpoint := updMap (cxl_memdev_get_bus t md).2.mdEndpoint md.id none } := by
        rw [if_pos (of_decide_eq_true hcl)]
      simp only [invalidateLoop, hif]
      obtain ⟨b1, b2, b3, b4, b5⟩ := ih
        { (cxl_memdev_get_bus t md).2 with
            mdEndpoint := updMap (cxl_memdev_get_bus t md).2.mdEndpoint md.id none }
      exact ⟨b1.trans hstepB, b2.trans hstepM, b3.trans hstepE,
        b4.trans hstepE2, b5.trans hstepF⟩

lemma invalidateLoop_cons (bid : Nat) (t : Topo) (md : MdRec) (rest : List MdRec) :
    invalidateLoop bid t (md :: rest) =
      invalidateLoop bid
        (if (cxl_memdev_get_bus t md).1 = some bid then
          { (cxl_memdev_get_bus t md).2 with
              mdEndpoint := updMap (cxl_memdev_get_bus t md).2.mdEndpoint md.id none }
         else (cxl_memdev_get_bus t md).2) rest := rfl

lemma invalidateLoop_other (bid : Nat) :
    ∀ (l : List MdRec) (t : Topo) (i : Nat), (∀ md ∈ l, md.id ≠ i) →
      (invalidateLoop bid t l).mdEndpoint i = t.mdEndpoint i := by
  intro l
  induction l with
  | nil => intro t i _; rfl
  | cons md rest ih =>
    intro t i h
    have hmd : i ≠ md.id := fun he => h md (List.mem_cons_self _ _) he.symm
    have hr : (cxl_memdev_get_bus t md).2.mdEndpoint i = t.mdEndpoint i := by
      rw [gb_topo]
      exact (ge_topo_fields t md).2.2.2.2.2 i hmd
    rw [invalidateLoop_cons]
    by_cases hc : (cxl_memdev_get_bus t md).1 = some bid
    · rw [if_pos hc, ih _ i (fun md' hmd' => h md' (List.mem_cons_of_mem _ hmd'))]
      show updMap _ md.id none i = _
      rw [updMap, if_neg hmd]
      exact hr
    · rw [if_neg hc, ih _ i (fun md' hmd' => h md' (List.mem_cons_of_mem _ hmd'))]
      exact hr

lemma invalidateLoop_target (bid : Nat) (t0 : Topo) :
    ∀ (l : List MdRec) (t : Topo) (md : MdRec), md ∈ l →
      (l.map MdRec.id).Nodup →
      t.buses = t0.buses → t.mdEnabled = t0.mdEnabled →
      t.epEnabled = t0.epEnabled →
      t.mdEndpoint md.id = t0.mdEndpoint md.id →
      (invalidateLoop bid t l).mdEndpoint md.id =
        (match (cxl_memdev_get_endpoint t0 md).res with
         | some e =>
           if cxl_endpoint_get_bus t0.epEnabled t0.buses e = some bid then none
           else some e
         | none => none) := by
  intro l
  induction l with
  | nil => intro t md hmem; cases hmem
  | cons md0 rest ih =>
    intro t md hmem hnd hb he hep hm
    rcases List.mem_cons.mp hmem with rfl | hrest
    · have hres : (cxl_memdev_get_endpoint t md).res =
          (cxl_memdev_get_endpoint t0 md).res := ge_res_congr t0 t md hm he hb
      have hbus : (cxl_memdev_get_bus t md).1 =
          (match (cxl_memdev_get_endpoint t0 md).res with
           | none => none
           | some e => cxl_endpoint_get_bus t0.epEnabled t0.buses e) := by
        rw [gb_res, hres, hb, hep]
      have hnotin : ∀ md' ∈ rest, md'.id ≠ md.id := by
        intro md' hmd' heq
        exact (List.nodup_cons.mp hnd).1 (heq ▸ List.mem_map_of_mem MdRec.id hmd')
      rw [invalidateLoop_cons]
      by_cases hc : (cxl_memdev_get_bus t md).1 = some bid
      · rw [if_pos hc]
        rw [invalidateLoop_other bid rest _ md.id hnotin]
        show updMap _ md.id none md.id = _
        rw [updMap, if_pos rfl]
        rcases hr : (cxl_memdev_get_endpoint t0 md).res with _ | e
        · rfl
        · rw [hr] at hbus
          rw [hbus] at hc
          simp only [] at hc
          simp [hc]
      · rw [if_neg hc]
        rw [invalidateLoop_other bid rest _ md.id hnotin]
        rw [gb_topo, ge_post, hres]
        rcases hr : (cxl_memdev_get_endpoint t0 md).res with _ | e
        · rfl
        · rw [hr] at hbus
          rw [hbus] at hc
          simp only [] at hc
          simp [hc]
    · have hne : md.id ≠ md0.id := by
        intro heq
        exact (List.nodup_cons.mp hnd).1 (heq ▸ List.mem_map_of_mem MdRec.id hrest)
      have hfr := ge_topo_fields t md0
      have hrb : (cxl_memdev_get_bus t md0).2.buses = t0.buses := by
        rw [gb_topo, hfr.1, hb]
      have hre : (cxl_memdev_get_bus t md0).2.mdEnabled = t0.mdEnabled := by
        rw [gb_topo, hfr.2.2.1, he]
      have hrep : (cxl_memdev_get_bus t md0).2.epEnabled = t0.epEnabled := by
        rw [gb_topo, hfr.2.2.2.1, hep]
      have hrm : (cxl_memdev_get_bus t md0).2.mdEndpoint md.id = t0.mdEndpoint md.id := by
        rw [gb_topo, hfr.2.2.2.2.2 md.id hne, hm]
      rw [invalidateLoop_cons]
      by_cases hc : (cxl_memdev_get_bus t md0).1 = some bid
      · rw [if_pos hc]
        refine ih _ md hrest (List.nodup_cons.mp hnd).2 hrb hre hrep ?_
        show updMap _ md0.id none md.id = _
        rw [updMap, if_neg hne]
        exact hrm
      · rw [if_neg hc]
        exact ih _ md hrest (List.nodup_cons.mp hnd).2 hrb hre hrep hrm

/-- C9: bus_invalidate keeps the context's memdev collection, rewrites only
the invalidated bus (emptying its child-port subtree and resetting its
ports-initialized flag), raises the external flush notification, and the
endpoint cache of each memdev ends up cleared exactly when that device's
resolution lands on the invalidated bus — a device resolving under another
bus keeps (or gains) its cached endpoint, and one whose endpoint port is
driver-unbound resolves its bus as NULL (the cxl_port_is_enabled guard of
cxl_port_get_bus), so its cache is left in place too. -/
theorem bus_invalidate_spec (t : Topo) (bid : Nat) (md : MdRec)
    (hnodup : (t.memdevs.map MdRec.id).Nodup) (hmem : md ∈ t.memdevs) :
    (bus_invalidate t bid).memdevs = t.memdevs ∧
    (bus_invalidate t bid).buses = t.buses.map (fun b =>
      if b.id = bid then { b with children := [], ports_init := false } else b) ∧
    (bus_invalidate t bid).flushed = true ∧
    (bus_invalidate t bid).mdEndpoint md.id =
      (match (cxl_memdev_get_endpoint t md).res with
       | some e =>
         if cxl_endpoint_get_bus t.epEnabled t.buses e = some bid then none
         else some e
       | none => none) := by
  obtain ⟨hb, hmems, _, _, _⟩ := invalidateLoop_fields bid t.memdevs t
  refine ⟨?_, ?_, ?_, ?_⟩
  · show (invalidateLoop bid t t.memdevs).memdevs = t.memdevs
    exact hmems
  · show (invalidateLoop bid t t.memdevs).buses.map _ = _
    rw [hb]
  · rfl
  · show (invalidateLoop bid t t.memdevs).mdEndpoint md.id = _
    exact invalidateLoop_target bid t t.memdevs t md hmem hnodup rfl rfl rfl rfl

/-- Witness for C9 on t9: invalidating bus 3 clears memdev 0 (resolved under
bus 3) while memdev 1 (bus 4) keeps its cached endpoint, bus 3 is emptied and
reset, and the flush fires. -/
theorem bus_invalidate_spec_witness :
    (bus_invalidate t9 3).memdevs = t9.memdevs ∧
    (bus_invalidate t9 3).buses = t9.buses.map (fun b =>
      if b.id = 3 then { b with children := [], ports_init := false } else b) ∧
    (bus_invalidate t9 3).flushed = true ∧
    (bus_invalidate t9 3).mdEndpoint (⟨0, 50⟩ : MdRec).id =
      (match (cxl_memdev_get_endpoint t9 ⟨0, 50⟩).res with
       | some e =>
         if cxl_endpoint_get_bus t9.epEnabled t9.buses e = some 3 then none
         else some e
       | none => none) :=
  bus_invalidate_spec t9 3 ⟨0, 50⟩ (by decide) (by decide)

/-! ## C1 and C10: the label-storage transfer loop -/

lemma new_generic_success (pmax : Nat) (caps : List CommandInfo) (X i : Nat)
    (ci : CommandInfo)
    (hg : caps.findIdx? (fun c => c.id = X) = some i)
    (hci : caps.getD i ⟨0, 0, 0, 0⟩ = ci) (hid : ci.id = X) :
    cxl_cmd_new_generic pmax caps X =
      (0,
       { payload_max := pmax
         query_cmd := some ⟨caps.length, caps⟩
         send_cmd := some
           { id := X
             in_size := if ci.size_in > 0 then ci.size_in else 0
             in_ref := if ci.size_in > 0 then .owned else .null
             out_size := if ci.size_out > 0 then ci.size_out else 0
             out_ref := if ci.size_out > 0 then .owned else .null
             retval := 0 }
         input_payload :=
           if ci.size_in > 0 then some (List.replicate ci.size_in 0) else none
         output_payload :=
           if ci.size_out > 0 then some (List.replicate ci.size_out 0) else none
         query_status := .ok
         query_idx := i
         status := 1 },
       [IoOp.queryCall 0, IoOp.queryCall caps.length]) := by
  have hci2 : caps[i]?.getD ⟨0, 0, 0, 0⟩ = ci := by
    rw [← List.getD_eq_getElem?_getD]
    exact hci
  simp [cxl_cmd_new_generic, cxl_cmd_do_query, cxl_cmd_new, alloc_do_query,
    cxl_cmd_validate, cxl_cmd_alloc_send, List.take_length, hg, hci2, hid]

lemma lsaOpStep_get (pmax : Nat) (caps : List CommandInfo) (res : SubmitRes)
    (w : List Nat) (length offset i : Nat) (ci : CommandInfo)
    (hg : caps.findIdx? (fun c => c.id = CXL_MEM_COMMAND_ID_GET_LSA) = some i)
    (hci : caps.getD i ⟨0, 0, 0, 0⟩ = ci)
    (hid : ci.id = CXL_MEM_COMMAND_ID_GET_LSA) (hsin : ci.size_in = 8)
    (hlen : length ≤ pmax) (hlen32 : length < 2 ^ 32) :
    lsaOpStep pmax caps res .get (some w) length offset =
      (chunkRes res,
       [IoOp.queryCall 0, IoOp.queryCall caps.length,
        IoOp.sendCall CXL_MEM_COMMAND_ID_GET_LSA
          (some (writeLE (writeLE (List.replicate 8 0) 0 offset 4) 4 length 4))
          8 length]) := by
  have hgen := new_generic_success pmax caps CXL_MEM_COMMAND_ID_GET_LSA i ci hg hci hid
  have hrl : readLE (writeLE (writeLE (List.replicate 8 0) 0 offset 4) 4 length 4) 4 4
      = length := by
    rw [readLE_writeLE]
    · rw [show (256 : Nat) ^ 4 = 2 ^ 32 by norm_num]
      exact Nat.mod_eq_of_lt hlen32
    · rw [length_writeLE, List.length_replicate]
  have hrl2 : readLE (writeLE (writeLE ([0, 0, 0, 0, 0, 0, 0, 0] : List Nat) 0 offset 4)
      4 length 4) 4 4 = length := by
    rw [show ([0, 0, 0, 0, 0, 0, 0, 0] : List Nat) = List.replicate 8 0 by rfl]
    exact hrl
  have hnp : ¬ length > pmax := Nat.not_lt.mpr hlen
  by_cases hrc : res.rc < 0
  · simp [lsaOpStep, cxl_cmd_new_read_label, hgen, hsin, storeIn,
      cxl_cmd_set_output_payload, hnp, finishStep, cxl_cmd_submit,
      readInPayload, chunkRes, hrc]
  · by_cases hrv : res.retval = 0
    · simp [lsaOpStep, cxl_cmd_new_read_label, hgen, hsin, storeIn,
        cxl_cmd_set_output_payload, hnp, finishStep, cxl_cmd_submit,
        writeOutPayload, readInPayload, readOutPayload, cxl_cmd_get_mbox_status,
        cxl_cmd_read_label_get_payload, cxl_cmd_validate_status, chunkRes,
        hrc, hrv, hrl, hrl2]
    · simp [lsaOpStep, cxl_cmd_new_read_label, hgen, hsin, storeIn,
        cxl_cmd_set_output_payload, hnp, finishStep, cxl_cmd_submit,
        writeOutPayload, readInPayload, readOutPayload, cxl_cmd_get_mbox_status,
        cxl_cmd_read_label_get_payload, cxl_cmd_validate_status, chunkRes,
        hrc, hrv, hrl, hrl2]

lemma lsaWritePath_eq (pmax : Nat) (caps : List CommandInfo) (res : SubmitRes)
    (data : List Nat) (length offset j : Nat) (cj : CommandInfo)
    (hg : caps.findIdx? (fun c => c.id = CXL_MEM_COMMAND_ID_SET_LSA) = some j)
    (hcj : caps.getD j ⟨0, 0, 0, 0⟩ = cj)
    (hid : cj.id = CXL_MEM_COMMAND_ID_SET_LSA)
    (hlen : 8 + length ≤ pmax) :
    lsaWritePath pmax caps res data length offset =
      (chunkRes res,
       [IoOp.queryCall 0, IoOp.queryCall caps.length,
        IoOp.sendCall CXL_MEM_COMMAND_ID_SET_LSA
          (some (overwriteAt (writeLE (List.replicate (8 + length) 0) 0 offset 4) 8
            (takePad data length)))
          (8 + length) (if cj.size_out > 0 then cj.size_out else 0)]) := by
  have hgen := new_generic_success pmax caps CXL_MEM_COMMAND_ID_SET_LSA j cj hg hcj hid
  have hnp : ¬ 8 + length > pmax := Nat.not_lt.mpr hlen
  by_cases hrc : res.rc < 0
  · simp [lsaWritePath, cxl_cmd_new_write_label, hgen, cxl_cmd_set_input_payload,
      hnp, storeIn, finishStep, cxl_cmd_submit, readInPayload, chunkRes, hrc]
  · by_cases hrv : res.retval = 0
    · simp [lsaWritePath, cxl_cmd_new_write_label, hgen, cxl_cmd_set_input_payload,
        hnp, storeIn, finishStep, cxl_cmd_submit, writeOutPayload, readInPayload,
        cxl_cmd_get_mbox_status, chunkRes, hrc, hrv]
    · simp [lsaWritePath, cxl_cmd_new_write_label, hgen, cxl_cmd_set_input_payload,
        hnp, storeIn, finishStep, cxl_cmd_submit, writeOutPayload, readInPayload,
        cxl_cmd_get_mbox_status, chunkRes, hrc, hrv]

lemma chunksF_zero (C : Nat) : ∀ (f base : Nat), chunksF C f base 0 = [] := by
  intro f base
  cases f <;> rfl

lemma chunksF_fuel (C : Nat) (hC : 1 ≤ C) :
    ∀ (f f' base L : Nat), L ≤ f → L ≤ f' →
      chunksF C f base L = chunksF C f' base L := by
  intro f
  induction f with
  | zero =>
    intro f' base L hf _
    have : L = 0 := Nat.le_zero.mp hf
    subst this
    rw [chunksF_zero, chunksF_zero]
  | succ g ih =>
    intro f' base L hf hf'
    cases L with
    | zero => rw [chunksF_zero, chunksF_zero]
    | succ r =>
      cases f' with
      | zero => omega
      | succ g' =>
        show (base, min C (r + 1)) :: chunksF C g _ _ =
          (base, min C (r + 1)) :: chunksF C g' _ _
        have hcl : 1 ≤ min C (r + 1) := by
          rcases Nat.le_total C (r + 1) with h | h
          · rw [min_eq_left h]; exact hC
          · rw [min_eq_right h]; omega
        congr 1
        exact ih g' _ _ (by omega) (by omega)

lemma chunks_nil (C base : Nat) : chunks C base 0 = [] := by
  rw [chunks, chunksF_zero]

lemma chunks_cons (C : Nat) (hC : 1 ≤ C) (base L : Nat) (hL : 0 < L) :
    chunks C base L =
      (base, min C L) :: chunks C (base + min C L) (L - min C L) := by
  cases L with
  | zero => omega
  | succ r =>
    show chunksF C (r + 1) base (r + 1) = _
    have hcl : 1 ≤ min C (r + 1) := by
      rcases Nat.le_total C (r + 1) with h | h
      · rw [min_eq_left h]; exact hC
      · rw [min_eq_right h]; omega
    show (base, min C (r + 1)) :: chunksF C r _ _ = _
    congr 1
    exact chunksF_fuel C hC r _ _ _ (by omega) (by omega)

lemma chunks_length (C : Nat) (hC : 1 ≤ C) :
    ∀ (L base : Nat), (chunks C base L).length = (L + C - 1) / C := by
  intro L
  induction L using Nat.strong_induction_on with
  | _ L ih =>
    intro base
    cases Nat.eq_zero_or_pos L with
    | inl h0 =>
      subst h0
      rw [chunks_nil]
      have h1 : (C - 1) / C = 0 := Nat.div_eq_of_lt (by omega)
      simp [h1]
    | inr hL =>
      rw [chunks_cons C hC base L hL]
      have hcl : 1 ≤ min C L := by
        rcases Nat.le_total C L with h | h
        · rw [min_eq_left h]; exact hC
        · rw [min_eq_right h]; omega
      rw [List.length_cons, ih (L - min C L) (by omega)]
      rcases Nat.le_total L C with h | h
      · rw [min_eq_right h]
        have h1 : (L - L + C - 1) / C = 0 := Nat.div_eq_of_lt (by omega)
        have h2 : (L + C - 1) / C = 1 :=
          Nat.div_eq_of_lt_le (by omega) (by omega)
        rw [h1, h2]
      · rw [min_eq_left h]
        have h3 : L + C - 1 = (L - C + C - 1) + C := by omega
        rw [h3, Nat.add_div_right _ (by omega)]

lemma chunks_getD (C : Nat) (hC : 1 ≤ C) :
    ∀ (k L base : Nat), k < (chunks C base L).length →
      (chunks C base L).getD k (0, 0) =
        (base + k * C, min C (L - k * C)) := by
  intro k
  induction k with
  | zero =>
    intro L base hk
    cases Nat.eq_zero_or_pos L with
    | inl h0 => subst h0; rw [chunks_nil] at hk; cases hk
    | inr hL =>
      rw [chunks_cons C hC base L hL]
      simp
  | succ k ih =>
    intro L base hk
    cases Nat.eq_zero_or_pos L with
    | inl h0 => subst h0; rw [chunks_nil] at hk; cases hk
    | inr hL =>
      rw [chunks_cons C hC base L hL] at hk ⊢
      rw [List.getD_cons_succ]
      have htail : k < (chunks C (base + min C L) (L - min C L)).length := by
        rw [List.length_cons] at hk
        omega
      have hpos : 0 < L - min C L := by
        by_contra hno
        have : L - min C L = 0 := by omega
        rw [this, chunks_nil] at htail
        cases htail
      have hcl : min C L = C := by
        rcases Nat.le_total C L with h | h
        · exact min_eq_left h
        · rw [min_eq_right h] at hpos ⊢
          omega
      rw [ih (L - min C L) (base + min C L) htail, hcl]
      have h1 : base + C + k * C = base + (k + 1) * C := by
        rw [Nat.succ_mul]
        omega
      have h2 : L - C - k * C = L - (k + 1) * C := by
        rw [Nat.sub_sub, Nat.succ_mul]
        congr 1
        omega
      rw [h1, h2]

lemma firstFail_none_of_ok (ω : Nat → Nat → SubmitRes) :
    ∀ (cs : List (Nat × Nat)), (∀ c ∈ cs, chunkRes (ω c.1 c.2) = 0) →
      firstFail ω cs = none := by
  intro cs
  induction cs with
  | nil => intro _; rfl
  | cons c rest ih =>
    intro h
    rw [firstFail]
    rw [if_neg (by simpa using h c (List.mem_cons_self _ _))]
    rw [ih (fun c' hc' => h c' (List.mem_cons_of_mem _ hc'))]
    rfl

lemma lsaLoop_rzero (ω : Nat → Nat → SubmitRes) (pmax : Nat)
    (caps : List CommandInfo) (op : LsaOp) (buf : Option (List Nat))
    (offset : Nat) : ∀ (fuel cur : Nat),
    lsaLoop ω pmax caps op buf offset fuel cur 0 = some (0, [], []) := by
  intro fuel cur
  cases fuel <;> rfl

lemma lsaLoop_succ (ω : Nat → Nat → SubmitRes) (pmax : Nat)
    (caps : List CommandInfo) (op : LsaOp) (buf : Option (List Nat))
    (offset : Nat) (g cur s : Nat) :
    lsaLoop ω pmax caps op buf offset (g + 1) cur (s + 1) =
      (if curLen pmax (s + 1) = 0 then none
       else
        if (lsaOpStep pmax caps (ω (offset + cur) (curLen pmax (s + 1))) op
            (buf.map (List.drop cur)) (curLen pmax (s + 1)) (offset + cur)).1 ≠ 0 then
          some ((lsaOpStep pmax caps (ω (offset + cur) (curLen pmax (s + 1))) op
              (buf.map (List.drop cur)) (curLen pmax (s + 1)) (offset + cur)).1,
            [(offset + cur, curLen pmax (s + 1))],
            (lsaOpStep pmax caps (ω (offset + cur) (curLen pmax (s + 1))) op
              (buf.map (List.drop cur)) (curLen pmax (s + 1)) (offset + cur)).2)
        else
          match lsaLoop ω pmax caps op buf offset g (cur + curLen pmax (s + 1))
              (s + 1 - curLen pmax (s + 1)) with
          | none => none
          | some (rc, txns, ops) =>
            some (rc, (offset + cur, curLen pmax (s + 1)) :: txns,
              (lsaOpStep pmax caps (ω (offset + cur) (curLen pmax (s + 1))) op
                (buf.map (List.drop cur)) (curLen pmax (s + 1)) (offset + cur)).2 ++ ops)) :=
  rfl

lemma lsaLoop_spec (ω : Nat → Nat → SubmitRes) (pmax : Nat)
    (caps : List CommandInfo) (op : LsaOp) (buf : Option (List Nat))
    (offset : Nat) (P : IoOp → Nat → Nat → Prop)
    (hpm : 9 ≤ pmax)
    (hstep : ∀ cur l, 1 ≤ l → l ≤ pmax - 8 →
      ∃ tr, lsaOpStep pmax caps (ω (offset + cur) l) op
          (buf.map (List.drop cur)) l (offset + cur) =
          (chunkRes (ω (offset + cur) l), tr) ∧
        (tr.filter IoOp.isSend).length = 1 ∧
        (∀ io ∈ tr, io.isSend = true → P io (offset + cur) l)) :
    ∀ (fuel cur r : Nat), r ≤ fuel →
      ∃ RC TX OPS,
        lsaLoop ω pmax caps op buf offset fuel cur r = some (RC, TX, OPS) ∧
        (match firstFail ω (chunks (pmax - 8) (offset + cur) r) with
         | none => RC = 0 ∧ TX = chunks (pmax - 8) (offset + cur) r
         | some k =>
           RC = chunkRes (ω ((chunks (pmax - 8) (offset + cur) r).getD k (0, 0)).1
              ((chunks (pmax - 8) (offset + cur) r).getD k (0, 0)).2) ∧
           TX = (chunks (pmax - 8) (offset + cur) r).take (k + 1)) ∧
        (OPS.filter IoOp.isSend).length = TX.length ∧
        (∀ io ∈ OPS, io.isSend = true → ∃ o l, (o, l) ∈ TX ∧ P io o l) := by
  have hC : 1 ≤ pmax - 8 := by omega
  intro fuel
  induction fuel with
  | zero =>
    intro cur r hr
    have : r = 0 := Nat.le_zero.mp hr
    subst this
    refine ⟨0, [], [], lsaLoop_rzero ω pmax caps op buf offset 0 cur, ?_, ?_, ?_⟩
    · rw [chunks_nil]
      exact ⟨rfl, rfl⟩
    · rfl
    · intro io hio; cases hio
  | succ g ih =>
    intro cur r hr
    cases r with
    | zero =>
      refine ⟨0, [], [], lsaLoop_rzero ω pmax caps op buf offset _ cur, ?_, ?_, ?_⟩
      · rw [chunks_nil]
        exact ⟨rfl, rfl⟩
      · rfl
      · intro io hio; cases hio
    | succ s =>
      have hcl : curLen pmax (s + 1) = min (pmax - 8) (s + 1) := by
        rw [curLen, if_neg (by omega)]
      have hclpos : 1 ≤ min (pmax - 8) (s + 1) := by
        rcases Nat.le_total (pmax - 8) (s + 1) with h | h
        · rw [min_eq_left h]; exact hC
        · rw [min_eq_right h]; omega
      have hclC : min (pmax - 8) (s + 1) ≤ pmax - 8 := min_le_left _ _
      obtain ⟨tr, htr, htrf, htrP⟩ := hstep cur (min (pmax - 8) (s + 1)) hclpos hclC
      have hchunks : chunks (pmax - 8) (offset + cur) (s + 1) =
          (offset + cur, min (pmax - 8) (s + 1)) ::
            chunks (pmax - 8) ((offset + cur) + min (pmax - 8) (s + 1))
              ((s + 1) - min (pmax - 8) (s + 1)) :=
        chunks_cons (pmax - 8) hC (offset + cur) (s + 1) (by omega)
      rw [lsaLoop_succ, hcl, if_neg (by omega), htr]
      by_cases hfail : chunkRes (ω (offset + cur) (min (pmax - 8) (s + 1))) = 0
      · rw [if_neg (by simpa using hfail)]
        obtain ⟨RC', TX', OPS', hloop, hspec, hfilter, hP⟩ :=
          ih (cur + min (pmax - 8) (s + 1)) ((s + 1) - min (pmax - 8) (s + 1))
            (by omega)
        rw [hloop]
        have haddassoc : offset + (cur + min (pmax - 8) (s + 1)) =
            (offset + cur) + min (pmax - 8) (s + 1) := by omega
        rw [haddassoc] at hspec
        refine ⟨RC', (offset + cur, min (pmax - 8) (s + 1)) :: TX', tr ++ OPS',
          rfl, ?_, ?_, ?_⟩
        · rw [hchunks, firstFail, if_neg (by simpa using hfail)]
          rcases hff : firstFail ω (chunks (pmax - 8)
              ((offset + cur) + min (pmax - 8) (s + 1))
              ((s + 1) - min (pmax - 8) (s + 1))) with _ | k
          · rw [hff] at hspec
            simp only [Option.map_none']
            exact ⟨hspec.1, by rw [hspec.2]⟩
          · rw [hff] at hspec
            simp only [Option.map_some']
            constructor
            · rw [List.getD_cons_succ]
              exact hspec.1
            · rw [List.take_succ_cons, hspec.2]
        · rw [List.filter_append, List.length_append, htrf, hfilter,
            List.length_cons]
          omega
        · intro io hio hsend
          rcases List.mem_append.mp hio with hl | hrr
          · exact ⟨offset + cur, min (pmax - 8) (s + 1),
              List.mem_cons_self _ _, htrP io hl hsend⟩
          · obtain ⟨o, l, hmem, hp⟩ := hP io hrr hsend
            exact ⟨o, l, List.mem_cons_of_mem _ hmem, hp⟩
      · rw [if_pos (by simpa using hfail)]
        refine ⟨chunkRes (ω (offset + cur) (min (pmax - 8) (s + 1))),
          [(offset + cur, min (pmax - 8) (s + 1))], tr, rfl, ?_, ?_, ?_⟩
        · rw [hchunks, firstFail, if_pos (by simpa using hfail)]
          constructor
          · rw [List.getD_cons_zero]
          · rw [List.take_succ_cons, List.take_zero]
        · rw [htrf]
          rfl
        · intro io hio hsend
          exact ⟨offset + cur, min (pmax - 8) (s + 1),
            List.mem_cons_self _ _, htrP io hio hsend⟩

/-- C1 (amended): for a label read/write/zero request of length L against a
device with maximum payload P ≥ 9, the transfer loop uses chunk capacity
C = P - 8 (8 bytes of set-label wire header): the chunk decomposition has
ceil(L / C) entries whose k-th entry covers offset base + k*C with length
min(C, remaining); the loop issues exactly those chunks as transactions up to
and including the first failing one, returning that transaction's error (0
and the full list when none fails), and the channel carries exactly one send
per issued chunk. A request of length 0 returns success immediately with no
transaction — provided the NULL-buffer precondition holds (read/write with a
NULL buffer fail with -EINVAL even at length 0). In particular P = 1024 and a
write of length 2000 at offset 0 issue exactly the transactions (0, 1016)
and (1016, 984). -/
theorem lsa_op_chunking (ω : Nat → Nat → SubmitRes) (pmax : Nat)
    (caps : List CommandInfo) (op : LsaOp) (buf : Option (List Nat))
    (length offset i j : Nat) (ci cj : CommandInfo)
    (hpm : 9 ≤ pmax) (hpm32 : pmax < 2 ^ 32)
    (hbuf : op = LsaOp.zero ∨ ∃ b, buf = some b)
    (hgi : caps.findIdx? (fun c => c.id = CXL_MEM_COMMAND_ID_GET_LSA) = some i)
    (hci : caps.getD i ⟨0, 0, 0, 0⟩ = ci)
    (hidi : ci.id = CXL_MEM_COMMAND_ID_GET_LSA) (hsin : ci.size_in = 8)
    (hgj : caps.findIdx? (fun c => c.id = CXL_MEM_COMMAND_ID_SET_LSA) = some j)
    (hcj : caps.getD j ⟨0, 0, 0, 0⟩ = cj)
    (hidj : cj.id = CXL_MEM_COMMAND_ID_SET_LSA) :
    ∃ RC TX OPS,
      lsa_op ω pmax caps op buf length offset = some (RC, TX, OPS) ∧
      (length = 0 → RC = 0 ∧ TX = [] ∧ OPS = []) ∧
      (0 < length →
        (chunks (pmax - 8) offset length).length =
          (length + (pmax - 8) - 1) / (pmax - 8) ∧
        (∀ k, k < (chunks (pmax - 8) offset length).length →
          (chunks (pmax - 8) offset length).getD k (0, 0) =
            (offset + k * (pmax - 8), min (pmax - 8) (length - k * (pmax - 8)))) ∧
        (match firstFail ω (chunks (pmax - 8) offset length) with
         | none => RC = 0 ∧ TX = chunks (pmax - 8) offset length
         | some k =>
           RC = chunkRes (ω ((chunks (pmax - 8) offset length).getD k (0, 0)).1
              ((chunks (pmax - 8) offset length).getD k (0, 0)).2) ∧
           TX = (chunks (pmax - 8) offset length).take (k + 1)) ∧
        (OPS.filter IoOp.isSend).length = TX.length) ∧
      ((cxl_memdev_write_label okOracle 1024 capsLsa
          (some (List.replicate 2000 0)) 2000 0).map (fun r => (r.1, r.2.1)) =
        some ((0 : Int), [(0, 1016), (1016, 984)])) := by
  have hC : 1 ≤ pmax - 8 := by omega
  have hnn : ¬ (op ≠ LsaOp.zero ∧ buf = none) := by
    rcases hbuf with h | ⟨b, hb⟩
    · simp [h]
    · simp [hb]
  by_cases hl0 : length = 0
  · refine ⟨0, [], [], ?_, ?_, ?_, by decide⟩
    · rw [lsa_op, if_neg hnn, if_pos hl0]
    · intro _; exact ⟨rfl, rfl, rfl⟩
    · intro hpos; omega
  · have hstep : ∀ cur l, 1 ≤ l → l ≤ pmax - 8 →
        ∃ tr, lsaOpStep pmax caps (ω (offset + cur) l) op
            (buf.map (List.drop cur)) l (offset + cur) =
            (chunkRes (ω (offset + cur) l), tr) ∧
          (tr.filter IoOp.isSend).length = 1 ∧
          (∀ io ∈ tr, io.isSend = true → True) := by
      intro cur l h1 hl
      have hlpm : l ≤ pmax := le_trans hl (Nat.sub_le pmax 8)
      have hl32 : l < 2 ^ 32 := lt_of_le_of_lt hlpm hpm32
      cases op with
      | get =>
        rcases hbuf with h | ⟨b, hb⟩
        · cases h
        · subst hb
          refine ⟨[IoOp.queryCall 0, IoOp.queryCall caps.length,
              IoOp.sendCall CXL_MEM_COMMAND_ID_GET_LSA
                (some (writeLE (writeLE (List.replicate 8 0) 0 (offset + cur) 4)
                  4 l 4)) 8 l],
            ?_, rfl, fun _ _ _ => trivial⟩
          exact lsaOpStep_get pmax caps (ω (offset + cur) l) (b.drop cur)
            l (offset + cur) i ci hgi hci hidi hsin hlpm hl32
      | set =>
        refine ⟨[IoOp.queryCall 0, IoOp.queryCall caps.length,
            IoOp.sendCall CXL_MEM_COMMAND_ID_SET_LSA
              (some (overwriteAt
                (writeLE (List.replicate (8 + l) 0) 0 (offset + cur) 4) 8
                (takePad ((buf.map (List.drop cur)).getD []) l)))
              (8 + l) (if cj.size_out > 0 then cj.size_out else 0)],
          ?_, rfl, fun _ _ _ => trivial⟩
        exact lsaWritePath_eq pmax caps (ω (offset + cur) l) _ l (offset + cur)
          j cj hgj hcj hidj (by omega)
      | zero =>
        refine ⟨[IoOp.queryCall 0, IoOp.queryCall caps.length,
            IoOp.sendCall CXL_MEM_COMMAND_ID_SET_LSA
              (some (overwriteAt
                (writeLE (List.replicate (8 + l) 0) 0 (offset + cur) 4) 8
                (takePad (List.replicate l 0) l)))
              (8 + l) (if cj.size_out > 0 then cj.size_out else 0)],
          ?_, rfl, fun _ _ _ => trivial⟩
        exact lsaWritePath_eq pmax caps (ω (offset + cur) l) _ l (offset + cur)
          j cj hgj hcj hidj (by omega)
    obtain ⟨RC, TX, OPS, hloop, hspec, hfilt, _⟩ :=
      lsaLoop_spec ω pmax caps op buf offset (fun _ _ _ => True) hpm hstep
        length 0 length le_rfl
    rw [Nat.add_zero] at hspec
    refine ⟨RC, TX, OPS, ?_, ?_, ?_, by decide⟩
    · rw [lsa_op, if_neg hnn, if_neg hl0]
      exact hloop
    · intro h0; exact absurd h0 hl0
    · intro _
      exact ⟨chunks_length (pmax - 8) hC length offset,
        fun k hk => chunks_getD (pmax - 8) hC k length offset hk, hspec, hfilt⟩

/-- Witness for C1 at the scenario device: payload 1024, the capsLsa table, a
2000-byte write at offset 0 under the always-succeeding oracle. -/
theorem lsa_op_chunking_witness :
    ∃ RC TX OPS,
      lsa_op okOracle 1024 capsLsa LsaOp.set (some (List.replicate 2000 0))
          2000 0 = some (RC, TX, OPS) ∧
      ((2000 : Nat) = 0 → RC = 0 ∧ TX = [] ∧ OPS = []) ∧
      (0 < (2000 : Nat) →
        (chunks (1024 - 8) 0 2000).length = (2000 + (1024 - 8) - 1) / (1024 - 8) ∧
        (∀ k, k < (chunks (1024 - 8) 0 2000).length →
          (chunks (1024 - 8) 0 2000).getD k (0, 0) =
            (0 + k * (1024 - 8), min (1024 - 8) (2000 - k * (1024 - 8)))) ∧
        (match firstFail okOracle (chunks (1024 - 8) 0 2000) with
         | none => RC = 0 ∧ TX = chunks (1024 - 8) 0 2000
         | some k =>
           RC = chunkRes (okOracle ((chunks (1024 - 8) 0 2000).getD k (0, 0)).1
              ((chunks (1024 - 8) 0 2000).getD k (0, 0)).2) ∧
           TX = (chunks (1024 - 8) 0 2000).take (k + 1)) ∧
        (OPS.filter IoOp.isSend).length = TX.length) ∧
      ((cxl_memdev_write_label okOracle 1024 capsLsa
          (some (List.replicate 2000 0)) 2000 0).map (fun r => (r.1, r.2.1)) =
        some ((0 : Int), [(0, 1016), (1016, 984)])) :=
  lsa_op_chunking okOracle 1024 capsLsa LsaOp.set (some (List.replicate 2000 0))
    2000 0 0 1 ⟨CXL_MEM_COMMAND_ID_GET_LSA, 0, 8, 0⟩
    ⟨CXL_MEM_COMMAND_ID_SET_LSA, 0, 0, 0⟩
    (by decide) (by decide) (Or.inr ⟨List.replicate 2000 0, rfl⟩)
    (by decide) (by decide) (by decide) (by decide) (by decide) (by decide)
    (by decide)

/-- Counterexample to C1's unconditional zero-length clause: a read request
of length 0 with a NULL caller buffer returns -EINVAL, not success — the
NULL-buffer check precedes the zero-length check in lsa_op. -/
theorem lsa_op_zero_length_null_counterexample :
    lsa_op okOracle 1024 capsLsa LsaOp.get none 0 0 = some (-22, [], []) ∧
    ((-22 : Int) ≠ 0) := by decide

/-- C10: a label read or write with a NULL caller buffer fails with -EINVAL
before issuing any command transaction (for every length, including 0),
while the zero operation accepts a NULL buffer: each of its chunks writes a
freshly allocated zero-filled scratch buffer — every send the channel sees
is a SET_LSA whose payload is the 8-byte header followed by all-zero label
bytes of the chunk length. -/
theorem lsa_op_null_buffer (ω : Nat → Nat → SubmitRes) (pmax : Nat)
    (caps : List CommandInfo) (length offset j : Nat) (cj : CommandInfo)
    (hpm : 9 ≤ pmax)
    (hgj : caps.findIdx? (fun c => c.id = CXL_MEM_COMMAND_ID_SET_LSA) = some j)
    (hcj : caps.getD j ⟨0, 0, 0, 0⟩ = cj)
    (hidj : cj.id = CXL_MEM_COMMAND_ID_SET_LSA)
    (hok : ∀ o l, chunkRes (ω o l) = 0) :
    cxl_memdev_read_label ω pmax caps none length offset = some (-22, [], []) ∧
    cxl_memdev_write_label ω pmax caps none length offset = some (-22, [], []) ∧
    ∃ TX OPS,
      cxl_memdev_zero_label ω pmax caps length offset = some (0, TX, OPS) ∧
      (∀ io ∈ OPS, io.isSend = true →
        ∃ cl ib osz,
          io = IoOp.sendCall CXL_MEM_COMMAND_ID_SET_LSA (some ib) (8 + cl) osz ∧
          ib.length = 8 + cl ∧ ib.drop 8 = List.replicate cl 0) := by
  refine ⟨rfl, rfl, ?_⟩
  by_cases hl0 : length = 0
  · refine ⟨[], [], ?_, ?_⟩
    · rw [cxl_memdev_zero_label, lsa_op, if_neg (by simp), if_pos hl0]
    · intro io hio; cases hio
  · have hstep : ∀ cur l, 1 ≤ l → l ≤ pmax - 8 →
        ∃ tr, lsaOpStep pmax caps (ω (offset + cur) l) LsaOp.zero
            ((none : Option (List Nat)).map (List.drop cur)) l (offset + cur) =
            (chunkRes (ω (offset + cur) l), tr) ∧
          (tr.filter IoOp.isSend).length = 1 ∧
          (∀ io ∈ tr, io.isSend = true →
            ∃ ib osz,
              io = IoOp.sendCall CXL_MEM_COMMAND_ID_SET_LSA (some ib)
                (8 + l) osz ∧
              ib.length = 8 + l ∧ ib.drop 8 = List.replicate l 0) := by
      intro cur l h1 hl
      have hD : takePad (List.replicate l 0) l = List.replicate l 0 := by
        simp [takePad]
      have hBlen : (writeLE (List.replicate (8 + l) 0) 0 (offset + cur) 4).length
          = 8 + l := by
        rw [length_writeLE, List.length_replicate]
      have hiblen : (overwriteAt
          (writeLE (List.replicate (8 + l) 0) 0 (offset + cur) 4) 8
          (List.replicate l 0)).length = 8 + l := by
        simp [overwriteAt, List.length_append, List.length_take,
          List.length_drop, hBlen, List.length_replicate]
      have hibdrop : (overwriteAt
          (writeLE (List.replicate (8 + l) 0) 0 (offset + cur) 4) 8
          (List.replicate l 0)).drop 8 = List.replicate l 0 := by
        rw [overwriteAt]
        have h8 : ((writeLE (List.replicate (8 + l) 0) 0 (offset + cur) 4).take
            8).length = 8 := by
          rw [List.length_take, hBlen]
          omega
        rw [List.append_assoc, List.drop_append_of_le_length h8.ge,
          List.drop_eq_nil_of_le h8.le, List.nil_append, List.length_replicate,
          List.drop_eq_nil_of_le hBlen.le, List.append_nil]
      refine ⟨[IoOp.queryCall 0, IoOp.queryCall caps.length,
          IoOp.sendCall CXL_MEM_COMMAND_ID_SET_LSA
            (some (overwriteAt
              (writeLE (List.replicate (8 + l) 0) 0 (offset + cur) 4) 8
              (takePad (List.replicate l 0) l)))
            (8 + l) (if cj.size_out > 0 then cj.size_out else 0)],
        ?_, rfl, ?_⟩
      · exact lsaWritePath_eq pmax caps (ω (offset + cur) l) _ l (offset + cur)
          j cj hgj hcj hidj (by omega)
      · intro io hio hsend
        simp only [List.mem_cons, List.not_mem_nil, or_false] at hio
        rcases hio with rfl | rfl | rfl
        · simp [IoOp.isSend] at hsend
        · simp [IoOp.isSend] at hsend
        · rw [hD]
          exact ⟨_, _, rfl, hiblen, hibdrop⟩
    obtain ⟨RC, TX, OPS, hloop, hspec, _, hP⟩ :=
      lsaLoop_spec ω pmax caps LsaOp.zero none offset
        (fun io _ l => ∃ ib osz,
          io = IoOp.sendCall CXL_MEM_COMMAND_ID_SET_LSA (some ib) (8 + l) osz ∧
          ib.length = 8 + l ∧ ib.drop 8 = List.replicate l 0)
        hpm hstep length 0 length le_rfl
    have hff : firstFail ω (chunks (pmax - 8) (offset + 0) length) = none :=
      firstFail_none_of_ok ω _ (fun c _ => hok c.1 c.2)
    rw [hff] at hspec
    refine ⟨TX, OPS, ?_, ?_⟩
    · rw [cxl_memdev_zero_label, lsa_op, if_neg (by simp), if_neg hl0, hloop,
        hspec.1]
    · intro io hio hsend
      obtain ⟨o, l, _, ib, osz, hio2, hlen2, hdrop2⟩ := hP io hio hsend
      exact ⟨l, ib, osz, hio2, hlen2, hdrop2⟩

/-- Witness for C10 at the scenario device and a 2000-byte window. -/
theorem lsa_op_null_buffer_witness :
    cxl_memdev_read_label okOracle 1024 capsLsa none 2000 0 =
      some (-22, [], []) ∧
    cxl_memdev_write_label okOracle 1024 capsLsa none 2000 0 =
      some (-22, [], []) ∧
    ∃ TX OPS,
      cxl_memdev_zero_label okOracle 1024 capsLsa 2000 0 = some (0, TX, OPS) ∧
      (∀ io ∈ OPS, io.isSend = true →
        ∃ cl ib osz,
          io = IoOp.sendCall CXL_MEM_COMMAND_ID_SET_LSA (some ib) (8 + cl) osz ∧
          ib.length = 8 + cl ∧ ib.drop 8 = List.replicate cl 0) :=
  lsa_op_null_buffer okOracle 1024 capsLsa 2000 0 1
    ⟨CXL_MEM_COMMAND_ID_SET_LSA, 0, 0, 0⟩ (by decide) (by decide) (by decide)
    (by decide) (fun _ _ => rfl)
